import Mathlib

/-!
Verification development for the stock_predictor feature computation engine
(`ml-service/app/features/*`).  The Python/pandas code is shallowly embedded:
a price bar is a record of exact rationals, a pandas `Series` of floats is a
`List PF` where `PF` models the IEEE special values (`nan`, `±inf`) that the
pandas computations produce and test against, and each pandas operation used
by the source (`diff`, `shift`, `rolling`, `ewm`, `cumsum`, elementwise
arithmetic and comparisons) is given its pandas semantics over that domain.
-/

/-- Pandas cell value: IEEE float semantics over exact rationals.
`nan` models missing/undefined, `pinf`/`ninf` the two infinities. -/
inductive PF where
  | nan : PF
  | pinf : PF
  | ninf : PF
  | num : ℚ → PF
deriving DecidableEq, Repr

namespace PF

/-- `x ≠ x` test of IEEE: true exactly on `nan`. -/
def isNan : PF → Bool
  | nan => true
  | _ => false

/-- A defined (finite) value. -/
def isNum : PF → Bool
  | num _ => true
  | _ => false

/-- IEEE addition. -/
def padd : PF → PF → PF
  | nan, _ => nan
  | _, nan => nan
  | pinf, ninf => nan
  | ninf, pinf => nan
  | pinf, _ => pinf
  | ninf, _ => ninf
  | num _, pinf => pinf
  | num _, ninf => ninf
  | num a, num b => num (a + b)

/-- IEEE negation. -/
def pneg : PF → PF
  | nan => nan
  | pinf => ninf
  | ninf => pinf
  | num a => num (-a)

/-- IEEE subtraction. -/
def psub (a b : PF) : PF := padd a (pneg b)

/-- IEEE multiplication (`inf * 0 = nan`). -/
def pmul : PF → PF → PF
  | nan, _ => nan
  | _, nan => nan
  | pinf, pinf => pinf
  | pinf, ninf => ninf
  | ninf, pinf => ninf
  | ninf, ninf => pinf
  | pinf, num b => if b > 0 then pinf else if b < 0 then ninf else nan
  | ninf, num b => if b > 0 then ninf else if b < 0 then pinf else nan
  | num a, pinf => if a > 0 then pinf else if a < 0 then ninf else nan
  | num a, ninf => if a > 0 then ninf else if a < 0 then pinf else nan
  | num a, num b => num (a * b)

/-- IEEE division: finite/0 gives a signed infinity (0/0 gives nan),
finite/inf gives 0, inf/inf gives nan. -/
def pdiv : PF → PF → PF
  | nan, _ => nan
  | _, nan => nan
  | pinf, pinf => nan
  | pinf, ninf => nan
  | ninf, pinf => nan
  | ninf, ninf => nan
  | pinf, num b => if b < 0 then ninf else pinf
  | ninf, num b => if b < 0 then pinf else ninf
  | num _, pinf => num 0
  | num _, ninf => num 0
  | num a, num b =>
      if b = 0 then (if a > 0 then pinf else if a < 0 then ninf else nan)
      else num (a / b)

/-- IEEE absolute value. -/
def pabs : PF → PF
  | nan => nan
  | pinf => pinf
  | ninf => pinf
  | num a => num |a|

/-- `np.sign`. -/
def psign : PF → PF
  | nan => nan
  | pinf => num 1
  | ninf => num (-1)
  | num a => num (if a > 0 then 1 else if a < 0 then -1 else 0)

/-- IEEE `<` comparison: any comparison with nan is false. -/
def pltB : PF → PF → Bool
  | nan, _ => false
  | _, nan => false
  | pinf, _ => false
  | _, pinf => true
  | _, ninf => false
  | ninf, _ => true
  | num a, num b => a < b

/-- IEEE `≤` comparison: any comparison with nan is false. -/
def pleB : PF → PF → Bool
  | nan, _ => false
  | _, nan => false
  | _, pinf => true
  | pinf, _ => false
  | ninf, _ => true
  | _, ninf => false
  | num a, num b => a ≤ b

/-- IEEE `>`. -/
def pgtB (a b : PF) : Bool := pltB b a

/-- IEEE `≥`. -/
def pgeB (a b : PF) : Bool := pleB b a

/-- `.astype(int)` of a boolean mask cell. -/
def ofBool (b : Bool) : PF := num (if b then 1 else 0)

/-- Row-wise max as in `pd.concat([...], axis=1).max(axis=1)`: skips nan,
all-nan gives nan. -/
def pmax2 : PF → PF → PF
  | nan, b => b
  | a, nan => a
  | pinf, _ => pinf
  | _, pinf => pinf
  | ninf, b => b
  | a, ninf => a
  | num a, num b => num (max a b)

/-- Row-wise min, skipping nan. -/
def pmin2 : PF → PF → PF
  | nan, b => b
  | a, nan => a
  | ninf, _ => ninf
  | _, ninf => ninf
  | pinf, b => b
  | a, pinf => a
  | num a, num b => num (min a b)

end PF

/-! ## Pandas series operations -/

/-- A pandas `Series` of floats. -/
abbrev Series := List PF

namespace Series

open PF

/-- Elementwise binary operation on two aligned series. -/
def lift2 (f : PF → PF → PF) (a b : Series) : Series := List.zipWith f a b

/-- `Series.shift(k)` for `k ≥ 0`: nan-pad the front. -/
def shiftN (k : ℕ) (xs : Series) : Series :=
  (List.range xs.length).map fun i => if i < k then PF.nan else xs.getD (i - k) PF.nan

/-- `Series.shift(-k)`: pull values from `k` rows ahead, nan at the tail. -/
def shiftNeg (k : ℕ) (xs : Series) : Series :=
  (List.range xs.length).map fun i => xs.getD (i + k) PF.nan

/-- `Series.diff()` = `x - x.shift(1)`. -/
def diff1 (xs : Series) : Series := lift2 psub xs (shiftN 1 xs)

/-- pandas `cumsum`: running sum that skips nan cells (the cell itself stays
nan, the accumulator is unchanged there). -/
def cumsumGo (acc : PF) : List PF → List PF
  | [] => []
  | x :: xs =>
      if x.isNan then PF.nan :: cumsumGo acc xs
      else padd acc x :: cumsumGo (padd acc x) xs

/-- pandas `Series.cumsum()`. -/
def cumsum (xs : Series) : Series := cumsumGo (num 0) xs

/-- pandas `ffill`: carry the last non-nan value forward. -/
def ffillGo (last : PF) : List PF → List PF
  | [] => []
  | x :: xs => if x.isNan then last :: ffillGo last xs else x :: ffillGo x xs

/-- pandas `Series.ffill()`. -/
def ffill (xs : Series) : Series := ffillGo PF.nan xs

/-- `Series.pct_change(k)` with the default pad fill: forward-fill, then
`filled / filled.shift(k) - 1`. -/
def pct_change (k : ℕ) (xs : Series) : Series :=
  let f := ffill xs
  lift2 (fun a b => psub (pdiv a b) (num 1)) f (shiftN k f)

/-- `Series.rolling(w).agg(...)` with the default `min_periods = w`: the cell
at `i` is defined only when the trailing window of length `w` is complete and
nan-free, in which case `agg` is applied to that window. -/
def rollingAgg (w : ℕ) (agg : List PF → PF) (xs : Series) : Series :=
  (List.range xs.length).map fun i =>
    if i + 1 < w then PF.nan
    else
      let win := (xs.take (i + 1)).drop (i + 1 - w)
      if win.any (·.isNan) then PF.nan else agg win

/-- Window sum. -/
def aggSum (l : List PF) : PF := l.foldl padd (num 0)

/-- Window mean. -/
def aggMean (l : List PF) : PF := pdiv (aggSum l) (num l.length)

/-- Window max (`rolling(w).max()` over a nan-free window). -/
def aggMax (l : List PF) : PF := l.foldl pmax2 PF.nan

/-- Window min. -/
def aggMin (l : List PF) : PF := l.foldl pmin2 PF.nan

/-- Fuel-bounded Newton iteration for the integer square root (structural
recursion so that the kernel can evaluate it). -/
def sqrtNatIter : ℕ → ℕ → ℕ → ℕ
  | 0, _, g => g
  | f + 1, n, g =>
      let next := (g + n / g) / 2
      if next < g then sqrtNatIter f n next else g

/-- Integer square root via Newton's method. -/
def sqrtNat (n : ℕ) : ℕ := if n ≤ 1 then n else sqrtNatIter n n (n / 2)

/-- Stand-in for the float square root used by `np.sqrt`/`Series.std`: the
true value is irrational in general, so the embedding uses a rational
square-root approximation; the only fact any proof below uses about it is
`sqrtQ 0 = 0` (exact also for floats). -/
def sqrtQ (q : ℚ) : ℚ := mkRat (sqrtNat q.num.toNat) (sqrtNat q.den)

/-- Square root on cells (`np.sqrt` of a float). -/
def psqrt : PF → PF
  | PF.nan => PF.nan
  | PF.pinf => PF.pinf
  | PF.ninf => PF.nan
  | num q => if q < 0 then PF.nan else num (sqrtQ q)

/-- Window sample standard deviation (`rolling(w).std()`, `ddof = 1`). -/
def aggStd (l : List PF) : PF :=
  if l.length < 2 then PF.nan
  else
    let m := aggMean l
    psqrt (pdiv (aggSum (l.map fun x => pmul (psub x m) (psub x m)))
                (num ((l.length : ℚ) - 1)))

/-- Window mean absolute deviation, the `lambda x: np.abs(x - x.mean()).mean()`
of the CCI computation. -/
def aggMad (l : List PF) : PF :=
  let m := aggMean l
  aggMean (l.map fun x => pabs (psub x m))

/-- Least-squares slope of a window against `x = 0,…,n−1`:
`np.polyfit(x, y, 1)[0]` as used by the volume-trend feature.  The source
returns 0 for windows shorter than 2. -/
def aggSlope (l : List PF) : PF :=
  if l.length < 2 then num 0
  else
    let n : ℚ := l.length
    let xs : List ℚ := (List.range l.length).map fun i => (i : ℚ)
    let sx : ℚ := xs.sum
    let sxx : ℚ := (xs.map fun x => x * x).sum
    let sy := aggSum l
    let sxy := aggSum (List.zipWith (fun x y => pmul (num x) y) xs l)
    pdiv (psub (pmul (num n) sxy) (pmul (num sx) sy)) (num (n * sxx - sx * sx))

/-! pandas `ewm(...).mean()`: the exponentially weighted moving average kernel
(the `adjust` and `min_periods` parameters as in pandas, `ignore_na = False`).
State: current weighted average (nan until the first observation), relative
weight of the history, and the number of non-nan observations so far. -/

structure EwmState where
  wavg : PF
  oldWt : ℚ
  nobs : ℕ
deriving DecidableEq, Repr

/-- One step of the pandas ewm kernel. -/
def ewmStep (adjust : Bool) (al : ℚ) (s : EwmState) (cur : PF) : EwmState :=
  let isObs := ¬ cur.isNan
  let nobs := s.nobs + (if isObs then 1 else 0)
  if ¬ s.wavg.isNan then
    let ow := s.oldWt * (1 - al)
    if isObs then
      let nw : ℚ := if adjust then 1 else al
      let w :=
        if s.wavg ≠ cur then
          pdiv (padd (pmul (num ow) s.wavg) (pmul (num nw) cur)) (num (ow + nw))
        else s.wavg
      EwmState.mk w (if adjust then ow + nw else 1) nobs
    else EwmState.mk s.wavg ow nobs
  else if isObs then EwmState.mk cur s.oldWt nobs
  else EwmState.mk s.wavg s.oldWt nobs

/-- Fold of the ewm kernel over the series: emit the running average once at
least `min_periods` observations have been seen, nan before. -/
def ewmGo (adjust : Bool) (al : ℚ) (minp : ℕ) (s : EwmState) : List PF → List PF
  | [] => []
  | x :: xs =>
      let st := ewmStep adjust al s x
      (if st.nobs ≥ minp then st.wavg else PF.nan) :: ewmGo adjust al minp st xs

/-- `Series.ewm(alpha, adjust, min_periods).mean()`. -/
def ewmMean (adjust : Bool) (al : ℚ) (minp : ℕ) (xs : Series) : Series :=
  ewmGo adjust al minp (EwmState.mk PF.nan 1 0) xs

/-- `ewm(span = s, adjust := False).mean()` with smoothing `2/(s+1)`. -/
def ewmSpan (s : ℚ) (xs : Series) : Series := ewmMean false (2 / (s + 1)) 0 xs

end Series

/-! ## Price bars -/

/-- One OHLCV row of the input DataFrame (exact rationals). -/
structure Bar where
  open' : ℚ
  high : ℚ
  low : ℚ
  close : ℚ
  volume : ℚ
deriving DecidableEq, Repr

/-- The `Close` column. -/
def closes (df : List Bar) : Series := df.map fun b => PF.num b.close

/-- The `Open` column. -/
def opens (df : List Bar) : Series := df.map fun b => PF.num b.open'

/-- The `High` column. -/
def highs (df : List Bar) : Series := df.map fun b => PF.num b.high

/-- The `Low` column. -/
def lows (df : List Bar) : Series := df.map fun b => PF.num b.low

/-- The `Volume` column. -/
def volumes (df : List Bar) : Series := df.map fun b => PF.num b.volume

/-! ## `app/features/technical.py` -/

namespace technical

open Series PF

/-- `calculate_rsi`: ewm-smoothed average gain/loss with `com = period-1`
(hence smoothing `1/period`, pandas default `adjust=True`) and
`min_periods = period`, then `100 - 100/(1+rs)`. -/
def calculate_rsi (prices : Series) (period : ℕ) : Series :=
  let delta := diff1 prices
  let gain := delta.map fun d => if pgtB d (num 0) then d else num 0
  let loss := delta.map fun d => if pltB d (num 0) then pneg d else num 0
  let avg_gain := ewmMean true (1 / (period : ℚ)) period gain
  let avg_loss := ewmMean true (1 / (period : ℚ)) period loss
  let rs := lift2 pdiv avg_gain avg_loss
  rs.map fun r => psub (num 100) (pdiv (num 100) (padd (num 1) r))

/-- `calculate_macd` (12/26/9): MACD line, signal line, histogram. -/
def calculate_macd (prices : Series) : Series × Series × Series :=
  let ema_fast := ewmSpan 12 prices
  let ema_slow := ewmSpan 26 prices
  let macd_line := lift2 psub ema_fast ema_slow
  let signal_line := ewmSpan 9 macd_line
  let histogram := lift2 psub macd_line signal_line
  (macd_line, signal_line, histogram)

/-- `calculate_stochastic` (14/3): raw %K and its 3-period mean %D. -/
def calculate_stochastic (high low close : Series) : Series × Series :=
  let lowest_low := rollingAgg 14 aggMin low
  let highest_high := rollingAgg 14 aggMax high
  let stoch_k := lift2 (fun a b => pmul (num 100) (pdiv a b))
    (lift2 psub close lowest_low) (lift2 psub highest_high lowest_low)
  let stoch_d := rollingAgg 3 aggMean stoch_k
  (stoch_k, stoch_d)

/-- `calculate_williams_r` (period 14). -/
def calculate_williams_r (high low close : Series) : Series :=
  let highest_high := rollingAgg 14 aggMax high
  let lowest_low := rollingAgg 14 aggMin low
  lift2 (fun a b => pmul (num (-100)) (pdiv a b))
    (lift2 psub highest_high close) (lift2 psub highest_high lowest_low)

/-- `calculate_cci` (period 20). -/
def calculate_cci (high low close : Series) : Series :=
  let typical_price := (lift2 padd (lift2 padd high low) close).map
    fun x => pdiv x (num 3)
  let sma := rollingAgg 20 aggMean typical_price
  let mean_deviation := rollingAgg 20 aggMad typical_price
  lift2 pdiv (lift2 psub typical_price sma)
    (mean_deviation.map fun x => pmul (num 0.015) x)

/-- `calculate_adx` (period 14), with the source's sequential re-assignment:
the `minus_dm` mask compares the raw low-diff against the already-masked
`plus_dm`. -/
def calculate_adx (high low close : Series) : Series :=
  let plus_dm0 := diff1 high
  let minus_dm0 := diff1 low
  let plus_dm := lift2 (fun p m => if pgtB p m && pgtB p (num 0) then p else num 0)
    plus_dm0 minus_dm0
  let minus_dm := lift2 (fun m p => if pgtB m p && pgtB m (num 0) then pneg m else num 0)
    minus_dm0 plus_dm
  let tr1 := lift2 psub high low
  let tr2 := (lift2 psub high (shiftN 1 close)).map pabs
  let tr3 := (lift2 psub low (shiftN 1 close)).map pabs
  let tr := lift2 pmax2 (lift2 pmax2 tr1 tr2) tr3
  let atr := ewmSpan 14 tr
  let plus_di := (lift2 pdiv (ewmSpan 14 plus_dm) atr).map fun x => pmul (num 100) x
  let minus_di := (lift2 pdiv (ewmSpan 14 minus_dm) atr).map fun x => pmul (num 100) x
  let dx := lift2 (fun a b => pdiv (pmul (num 100) (pabs a)) b)
    (lift2 psub plus_di minus_di) (lift2 padd plus_di minus_di)
  ewmSpan 14 dx

/-- `generate_technical_features`: the ten columns added to the frame. -/
def generate_technical_features (df : List Bar) : List (String × Series) :=
  let macd := calculate_macd (closes df)
  let stoch := calculate_stochastic (highs df) (lows df) (closes df)
  [("RSI_14", calculate_rsi (closes df) 14),
   ("RSI_7", calculate_rsi (closes df) 7),
   ("MACD", macd.1),
   ("MACD_Signal", macd.2.1),
   ("MACD_Histogram", macd.2.2),
   ("Stochastic_K", stoch.1),
   ("Stochastic_D", stoch.2),
   ("Williams_R", calculate_williams_r (highs df) (lows df) (closes df)),
   ("CCI", calculate_cci (highs df) (lows df) (closes df)),
   ("ADX", calculate_adx (highs df) (lows df) (closes df))]

end technical

/-! ## `app/features/volume.py` -/

namespace volume

open Series PF

/-- `calculate_volume_ratio`: volume over its rolling mean. -/
def calculate_volume_ratio (vol : Series) (period : ℕ) : Series :=
  lift2 pdiv vol (rollingAgg period aggMean vol)

/-- `calculate_obv`: `(np.sign(close.diff()) * volume).cumsum()`. -/
def calculate_obv (close vol : Series) : Series :=
  cumsum (lift2 pmul ((diff1 close).map psign) vol)

/-- `calculate_volume_trend`: rolling least-squares slope of volume. -/
def calculate_volume_trend (vol : Series) (period : ℕ) : Series :=
  rollingAgg period aggSlope vol

/-- `calculate_vwap`: cumulative typical-price dollar volume over cumulative
volume. -/
def calculate_vwap (high low close vol : Series) : Series :=
  let typical_price := (lift2 padd (lift2 padd high low) close).map fun x => pdiv x (num 3)
  lift2 pdiv (cumsum (lift2 pmul typical_price vol)) (cumsum vol)

/-- `calculate_volume_spike` (threshold 2.5, period 20). -/
def calculate_volume_spike (vol : Series) : Series :=
  let ma := rollingAgg 20 aggMean vol
  lift2 (fun v m => ofBool (pgtB (pdiv v m) (num 2.5))) vol ma

/-- The OBV column added by `generate_volume_features` (intermediate). -/
def obvCol (df : List Bar) : Series := calculate_obv (closes df) (volumes df)

/-- `generate_volume_features`: the seven columns added (`OBV` is an
intermediate that stays in the frame but is not a pipeline feature). -/
def generate_volume_features (df : List Bar) : List (String × Series) :=
  [("Volume_Ratio_10D", calculate_volume_ratio (volumes df) 10),
   ("Volume_Ratio_20D", calculate_volume_ratio (volumes df) 20),
   ("OBV", obvCol df),
   ("OBV_Change", (pct_change 20 (obvCol df)).map fun x => pmul x (num 100)),
   ("Volume_Trend",
     lift2 pdiv (calculate_volume_trend (volumes df) 20)
       (rollingAgg 20 aggMean (volumes df))),
   ("VWAP_Distance",
     let vwap := calculate_vwap (highs df) (lows df) (closes df) (volumes df)
     (lift2 pdiv (lift2 psub (closes df) vwap) vwap).map fun x => pmul x (num 100)),
   ("Volume_Spike", calculate_volume_spike (volumes df))]

end volume

/-! ## `app/features/price.py` -/

namespace price

open Series PF

/-- `calculate_sma`. -/
def calculate_sma (prices : Series) (period : ℕ) : Series :=
  rollingAgg period aggMean prices

/-- `calculate_price_vs_sma`: percentage distance from the SMA. -/
def calculate_price_vs_sma (prices : Series) (period : ℕ) : Series :=
  let sma := calculate_sma prices period
  (lift2 pdiv (lift2 psub prices sma) sma).map fun x => pmul x (num 100)

/-- `calculate_52w_high_low` (period 252). -/
def calculate_52w_high_low (df : List Bar) : Series × Series :=
  (rollingAgg 252 aggMax (highs df), rollingAgg 252 aggMin (lows df))

/-- `calculate_price_position`: position of the close inside the 52-week
range. -/
def calculate_price_position (close high_52w low_52w : Series) : Series :=
  lift2 pdiv (lift2 psub close low_52w) (lift2 psub high_52w low_52w)

/-- `calculate_gap`: opening gap over the previous close, in percent. -/
def calculate_gap (open_price prev_close : Series) : Series :=
  (lift2 pdiv (lift2 psub open_price prev_close) prev_close).map fun x => pmul x (num 100)

/-- `calculate_intraday_range`: bar range over the open, in percent. -/
def calculate_intraday_range (open_price high low : Series) : Series :=
  (lift2 pdiv (lift2 psub high low) open_price).map fun x => pmul x (num 100)

/-- `generate_price_features`: the eight columns added. -/
def generate_price_features (df : List Bar) : List (String × Series) :=
  let hl := calculate_52w_high_low df
  [("Price_vs_SMA20", calculate_price_vs_sma (closes df) 20),
   ("Price_vs_SMA50", calculate_price_vs_sma (closes df) 50),
   ("Price_vs_SMA200", calculate_price_vs_sma (closes df) 200),
   ("Distance_52W_High",
     (lift2 pdiv (lift2 psub hl.1 (closes df)) hl.1).map fun x => pmul x (num 100)),
   ("Distance_52W_Low",
     (lift2 pdiv (lift2 psub (closes df) hl.2) hl.2).map fun x => pmul x (num 100)),
   ("Price_Position", calculate_price_position (closes df) hl.1 hl.2),
   ("Gap_Up_Pct", calculate_gap (opens df) (shiftN 1 (closes df))),
   ("Intraday_Range", calculate_intraday_range (opens df) (highs df) (lows df))]

end price

/-! ## `app/features/momentum.py` -/

namespace momentum

open Series PF

/-- `calculate_returns`: percentage change over `period` rows. -/
def calculate_returns (prices : Series) (period : ℕ) : Series :=
  (pct_change period prices).map fun x => pmul x (num 100)

/-- `calculate_momentum_score`: 40/35/25-weighted 1/5/10-day returns. -/
def calculate_momentum_score (df : List Bar) : Series :=
  let ret_1d := (pct_change 1 (closes df)).map fun x => pmul x (num 100)
  let ret_5d := (pct_change 5 (closes df)).map fun x => pmul x (num 100)
  let ret_10d := (pct_change 10 (closes df)).map fun x => pmul x (num 100)
  lift2 padd
    (lift2 padd (ret_1d.map fun x => pmul x (num 0.4))
      (ret_5d.map fun x => pmul x (num 0.35)))
    (ret_10d.map fun x => pmul x (num 0.25))

/-- `calculate_acceleration` (5 vs 20): difference of momenta, in percent. -/
def calculate_acceleration (prices : Series) : Series :=
  let short_mom := pct_change 5 prices
  let long_mom := pct_change 20 prices
  (lift2 psub short_mom long_mom).map fun x => pmul x (num 100)

/-- `generate_momentum_features`: the five columns added. -/
def generate_momentum_features (df : List Bar) : List (String × Series) :=
  [("Return_1D", calculate_returns (closes df) 1),
   ("Return_5D", calculate_returns (closes df) 5),
   ("Return_10D", calculate_returns (closes df) 10),
   ("Momentum_Score", calculate_momentum_score df),
   ("Acceleration", calculate_acceleration (closes df))]

end momentum

/-! ## `app/features/volatility.py` -/

namespace volatility

open Series PF

/-- Stand-in for the float natural logarithm `np.log`: irrational in general;
the only fact any proof below uses about it is `logQ 1 = 0` (exact also for
floats). -/
def logQ (q : ℚ) : ℚ := q - 1

/-- `np.log` on cells. -/
def plog : PF → PF
  | PF.nan => PF.nan
  | PF.pinf => PF.pinf
  | PF.ninf => PF.nan
  | num q => if q > 0 then num (logQ q) else if q = 0 then PF.ninf else PF.nan

/-- `calculate_atr` (period 14): ewm-smoothed true range. -/
def calculate_atr (high low close : Series) (period : ℚ) : Series :=
  let tr1 := lift2 psub high low
  let tr2 := (lift2 psub high (shiftN 1 close)).map pabs
  let tr3 := (lift2 psub low (shiftN 1 close)).map pabs
  let true_range := lift2 pmax2 (lift2 pmax2 tr1 tr2) tr3
  ewmSpan period true_range

/-- `calculate_bollinger_bands` (20, 2): upper, middle, lower. -/
def calculate_bollinger_bands (prices : Series) : Series × Series × Series :=
  let middle := rollingAgg 20 aggMean prices
  let std := rollingAgg 20 aggStd prices
  let upper := lift2 padd middle (std.map fun x => pmul x (num 2))
  let lower := lift2 psub middle (std.map fun x => pmul x (num 2))
  (upper, middle, lower)

/-- `calculate_bollinger_width`: band width as a percentage of the middle. -/
def calculate_bollinger_width (upper lower middle : Series) : Series :=
  (lift2 pdiv (lift2 psub upper lower) middle).map fun x => pmul x (num 100)

/-- `calculate_bollinger_position`: position of the close inside the bands. -/
def calculate_bollinger_position (prices upper lower : Series) : Series :=
  lift2 pdiv (lift2 psub prices lower) (lift2 psub upper lower)

/-- `calculate_historical_volatility` (period 20): annualized std of log
returns, in percent. -/
def calculate_historical_volatility (prices : Series) : Series :=
  let log_returns := (lift2 pdiv prices (shiftN 1 prices)).map plog
  (rollingAgg 20 aggStd log_returns).map fun x =>
    pmul (pmul x (num (sqrtQ 252))) (num 100)

/-- `generate_volatility_features`: the four columns added. -/
def generate_volatility_features (df : List Bar) : List (String × Series) :=
  let atr := calculate_atr (highs df) (lows df) (closes df) 14
  let bb := calculate_bollinger_bands (closes df)
  [("ATR_14", (lift2 pdiv atr (closes df)).map fun x => pmul x (num 100)),
   ("Bollinger_Width", calculate_bollinger_width bb.1 bb.2.2 bb.2.1),
   ("Bollinger_Position", calculate_bollinger_position (closes df) bb.1 bb.2.2),
   ("Historical_Vol_20", calculate_historical_volatility (closes df))]

end volatility

/-! ## `app/features/pipeline.py` (`FeaturePipeline`) -/

namespace pipeline

open Series PF

/-- The canonical ordered feature schema (`FeaturePipeline.FEATURE_COLUMNS`,
36 names). -/
def FEATURE_COLUMNS : List String :=
  ["RSI_14", "RSI_7", "MACD", "MACD_Signal", "MACD_Histogram",
   "Stochastic_K", "Stochastic_D", "Williams_R", "CCI", "ADX",
   "Volume_Ratio_10D", "Volume_Ratio_20D", "OBV_Change",
   "Volume_Trend", "VWAP_Distance", "Volume_Spike",
   "Price_vs_SMA20", "Price_vs_SMA50", "Price_vs_SMA200",
   "Distance_52W_High", "Distance_52W_Low", "Price_Position",
   "Gap_Up_Pct", "Intraday_Range",
   "Return_1D", "Return_5D", "Return_10D", "Momentum_Score", "Acceleration",
   "ATR_14", "Bollinger_Width", "Bollinger_Position", "Historical_Vol_20",
   "Trend_Strength", "Reversal_Signal", "Breakout_Score"]

/-- `FeaturePipeline.__init__`: minimum one year of rows. -/
def min_data_points : ℕ := 252

/-- Column lookup in the accumulated frame. -/
def lookup? (name : String) (cols : List (String × Series)) : Option Series :=
  (cols.find? fun c => c.1 == name).map Prod.snd

/-- `trend += term` guarded by `if col in df.columns` (skipped when the
column is absent). -/
def addIf (acc : Series) (t : Option Series) : Series :=
  match t with
  | none => acc
  | some s => lift2 padd acc s

/-- `FeaturePipeline._calculate_derived_features`: the three composite
columns, built from the already-generated columns of the frame. -/
def _calculate_derived_features (n : ℕ) (cols : List (String × Series)) :
    List (String × Series) :=
  let zeros : Series := List.replicate n (num 0)
  let trend_strength :=
    addIf (addIf (addIf zeros
      ((lookup? "Price_vs_SMA20" cols).map fun s => s.map psign))
      ((lookup? "Price_vs_SMA50" cols).map fun s => s.map psign))
      ((lookup? "Price_vs_SMA200" cols).map fun s => s.map psign)
  let reversal_signal :=
    addIf (addIf (addIf (addIf zeros
      ((lookup? "RSI_14" cols).map fun s =>
        s.map fun x => pmul (ofBool (pltB x (num 30))) (num 2)))
      ((lookup? "RSI_14" cols).map fun s =>
        s.map fun x => pmul (ofBool (pltB x (num 20))) (num 1)))
      (lookup? "Volume_Spike" cols))
      ((lookup? "Price_Position" cols).map fun s =>
        s.map fun x => pmul (ofBool (pltB x (num 0.2))) (num 1))
  let breakout_score :=
    addIf (addIf (addIf (addIf zeros
      ((lookup? "Distance_52W_High" cols).map fun s =>
        s.map fun x => pmul (ofBool (pltB x (num 5))) (num 2)))
      ((lookup? "Volume_Ratio_10D" cols).map fun s =>
        s.map fun x => pmul (ofBool (pgtB x (num 1.5))) (num 1)))
      ((lookup? "RSI_14" cols).map fun s =>
        s.map fun x => pmul (ofBool (pgtB x (num 55) && pltB x (num 75))) (num 1)))
      ((lookup? "MACD_Histogram" cols).map fun s =>
        s.map fun x => pmul (ofBool (pgtB x (num 0))) (num 1))
  [("Trend_Strength", trend_strength),
   ("Reversal_Signal", reversal_signal),
   ("Breakout_Score", breakout_score)]

/-- All columns generated by the five feature modules plus the derived
three, in frame-insertion order, 1:1 aligned with the input rows. -/
def featureMatrix (df : List Bar) : List (String × Series) :=
  let cols := technical.generate_technical_features df
    ++ volume.generate_volume_features df
    ++ price.generate_price_features df
    ++ momentum.generate_momentum_features df
    ++ volatility.generate_volatility_features df
  cols ++ _calculate_derived_features df.length cols

/-- The training target: `(Close.shift(-1)/Close - 1 >= 0.05).astype(int)`. -/
def target (df : List Bar) : Series :=
  let next_day_return :=
    lift2 (fun a b => psub (pdiv a b) (num 1)) (shiftNeg 1 (closes df)) (closes df)
  next_day_return.map fun x => ofBool (pgeB x (num 0.05))

/-- The selected feature table: ordered column names, and the surviving rows,
each tagged with its original row index (the pandas index is kept by
`dropna`). -/
structure FeatureTable where
  cols : List String
  rows : List (ℕ × List PF)
deriving DecidableEq, Repr

/-- The OHLCV columns present in the frame before feature generation. -/
def baseColumns : List String := ["Open", "High", "Low", "Close", "Volume"]

/-- Materialize the row at each index from the selected column series. -/
def rowsOf : ℕ → ℕ → List Series → List (ℕ × List PF)
  | _, 0, _ => []
  | i, m + 1, cols =>
      (i, cols.map fun c => c.headD PF.nan) :: rowsOf (i + 1) m (cols.map List.tail)

/-- The generated columns of the frame (`result` minus OHLCV): the feature
matrix plus, in training mode, the appended `Target` column. -/
def gen_cols (df : List Bar) (include_target : Bool) : List (String × Series) :=
  if include_target then featureMatrix df ++ [("Target", target df)]
  else featureMatrix df

/-- `result.columns` at selection time: the OHLCV columns plus every
generated column name. -/
def result_columns (df : List Bar) (include_target : Bool) : List String :=
  baseColumns ++ (gen_cols df include_target).map Prod.fst

/-- The `feature_cols` local of `generate_features`: the schema columns that
are present in the frame, plus `Target` in training mode. -/
def feature_cols (df : List Bar) (include_target : Bool) : List String :=
  (FEATURE_COLUMNS.filter fun c => (result_columns df include_target).contains c)
  ++ (if include_target then ["Target"] else [])

/-- The selected column series, in `feature_cols` order. -/
def selected (df : List Bar) (include_target : Bool) : List Series :=
  (feature_cols df include_target).map fun c =>
    ((lookup? c (gen_cols df include_target)).getD [])

/-- `result[feature_cols]` before `dropna`: one row per input row, in input
order, with per-cell nan markers. -/
def aligned_rows (df : List Bar) (include_target : Bool) : List (ℕ × List PF) :=
  rowsOf 0 df.length (selected df include_target)

/-- `FeaturePipeline.generate_features`: refuse short inputs, generate all
columns, optionally append the target, select the schema columns, and drop
every row containing a nan (the locals of the source method are the hoisted
definitions above). -/
def generate_features (df : List Bar) (include_target : Bool) :
    Option FeatureTable :=
  if df.length < min_data_points then none
  else
    some (FeatureTable.mk (feature_cols df include_target)
      ((aligned_rows df include_target).filter fun r => r.2.all fun x => ¬ x.isNan))

/-- `FeaturePipeline.get_feature_names`. -/
def get_feature_names : List String := FEATURE_COLUMNS

end pipeline

/-! ## `app/features/candlestick_patterns.py` (`CandlestickPatternDetector`) -/

namespace candlestick

open PF Series

/-- Cell of `s.shift(k)` at row `i` (`k = 0` reads the row itself). -/
def sft (s : Series) (k i : ℕ) : PF :=
  if i < k then PF.nan else s.getD (i - k) PF.nan

/-- Truth value of a mask cell inside a `&` chain: pandas logical operations
on object dtype treat a shifted-in nan as False. -/
def asMask : PF → Bool
  | PF.nan => false
  | PF.pinf => true
  | PF.ninf => true
  | num q => q ≠ 0

/-- `.astype(bool)` of a float cell: `bool(nan)` is True. -/
def asBool : PF → Bool
  | PF.nan => true
  | PF.pinf => true
  | PF.ninf => true
  | num q => q ≠ 0

/-- Build a 0/1 int mask column from a row predicate. -/
def mask (df : List Bar) (f : ℕ → Bool) : Series :=
  (List.range df.length).map fun i => ofBool (f i)

/-- `df['body']`. -/
def body (df : List Bar) : Series := lift2 psub (closes df) (opens df)

/-- `df['body_abs']`. -/
def body_abs (df : List Bar) : Series := (body df).map pabs

/-- `df['range']`. -/
def range (df : List Bar) : Series := lift2 psub (highs df) (lows df)

/-- `df['upper_shadow']`. -/
def upper_shadow (df : List Bar) : Series :=
  lift2 psub (highs df) (lift2 pmax2 (opens df) (closes df))

/-- `df['lower_shadow']`. -/
def lower_shadow (df : List Bar) : Series :=
  lift2 psub (lift2 pmin2 (opens df) (closes df)) (lows df)

/-- `df['is_bullish']` as a 0/1 column. -/
def is_bullish (df : List Bar) : Series :=
  lift2 (fun c o => ofBool (pgtB c o)) (closes df) (opens df)

/-- `df['is_bearish']` as a 0/1 column. -/
def is_bearish (df : List Bar) : Series :=
  lift2 (fun c o => ofBool (pltB c o)) (closes df) (opens df)

/-- `df['avg_body']`: 20-row rolling mean of the absolute body. -/
def avg_body (df : List Bar) : Series := rollingAgg 20 aggMean (body_abs df)

/-- `df['avg_range']`. -/
def avg_range (df : List Bar) : Series := rollingAgg 20 aggMean (range df)

/-- Pattern 1: doji. -/
def doji (df : List Bar) : Series :=
  mask df fun i =>
    pltB (sft (body_abs df) 0 i) (pmul (sft (range df) 0 i) (num 0.1))

/-- Pattern 2: long-legged doji. -/
def long_legged_doji (df : List Bar) : Series :=
  mask df fun i =>
    pltB (sft (body_abs df) 0 i) (pmul (sft (range df) 0 i) (num 0.1)) &&
    pgtB (sft (upper_shadow df) 0 i) (pmul (sft (range df) 0 i) (num 0.3)) &&
    pgtB (sft (lower_shadow df) 0 i) (pmul (sft (range df) 0 i) (num 0.3))

/-- Pattern 3: dragonfly doji. -/
def dragonfly_doji (df : List Bar) : Series :=
  mask df fun i =>
    pltB (sft (body_abs df) 0 i) (pmul (sft (range df) 0 i) (num 0.1)) &&
    pltB (sft (upper_shadow df) 0 i) (pmul (sft (range df) 0 i) (num 0.1)) &&
    pgtB (sft (lower_shadow df) 0 i) (pmul (sft (range df) 0 i) (num 0.6))

/-- Pattern 4: gravestone doji. -/
def gravestone_doji (df : List Bar) : Series :=
  mask df fun i =>
    pltB (sft (body_abs df) 0 i) (pmul (sft (range df) 0 i) (num 0.1)) &&
    pltB (sft (lower_shadow df) 0 i) (pmul (sft (range df) 0 i) (num 0.1)) &&
    pgtB (sft (upper_shadow df) 0 i) (pmul (sft (range df) 0 i) (num 0.6))

/-- Pattern 5: hammer. -/
def hammer (df : List Bar) : Series :=
  mask df fun i =>
    pgtB (sft (lower_shadow df) 0 i) (pmul (sft (body_abs df) 0 i) (num 2)) &&
    pltB (sft (upper_shadow df) 0 i) (pmul (sft (body_abs df) 0 i) (num 0.5)) &&
    pgtB (sft (body_abs df) 0 i) (num 0)

/-- Pattern 6: inverted hammer. -/
def inverted_hammer (df : List Bar) : Series :=
  mask df fun i =>
    pgtB (sft (upper_shadow df) 0 i) (pmul (sft (body_abs df) 0 i) (num 2)) &&
    pltB (sft (lower_shadow df) 0 i) (pmul (sft (body_abs df) 0 i) (num 0.5)) &&
    pgtB (sft (body_abs df) 0 i) (num 0)

/-- Pattern 7: hanging man. -/
def hanging_man (df : List Bar) : Series :=
  mask df fun i =>
    pgtB (sft (lower_shadow df) 0 i) (pmul (sft (body_abs df) 0 i) (num 2)) &&
    pltB (sft (upper_shadow df) 0 i) (pmul (sft (body_abs df) 0 i) (num 0.5)) &&
    pltB (sft (closes df) 1 i) (sft (closes df) 5 i)

/-- Pattern 8: shooting star. -/
def shooting_star (df : List Bar) : Series :=
  mask df fun i =>
    pgtB (sft (upper_shadow df) 0 i) (pmul (sft (body_abs df) 0 i) (num 2)) &&
    pltB (sft (lower_shadow df) 0 i) (pmul (sft (body_abs df) 0 i) (num 0.5)) &&
    pltB (sft (closes df) 1 i) (sft (closes df) 5 i)

/-- Pattern 9a: bullish marubozu. -/
def bullish_marubozu (df : List Bar) : Series :=
  mask df fun i =>
    asMask (sft (is_bullish df) 0 i) &&
    pltB (sft (upper_shadow df) 0 i) (pmul (sft (range df) 0 i) (num 0.05)) &&
    pltB (sft (lower_shadow df) 0 i) (pmul (sft (range df) 0 i) (num 0.05))

/-- Pattern 9b: bearish marubozu. -/
def bearish_marubozu (df : List Bar) : Series :=
  mask df fun i =>
    asMask (sft (is_bearish df) 0 i) &&
    pltB (sft (upper_shadow df) 0 i) (pmul (sft (range df) 0 i) (num 0.05)) &&
    pltB (sft (lower_shadow df) 0 i) (pmul (sft (range df) 0 i) (num 0.05))

/-- Pattern 10: spinning top (excludes doji). -/
def spinning_top (df : List Bar) : Series :=
  mask df fun i =>
    pltB (sft (body_abs df) 0 i) (pmul (sft (range df) 0 i) (num 0.3)) &&
    pgtB (sft (upper_shadow df) 0 i) (sft (body_abs df) 0 i) &&
    pgtB (sft (lower_shadow df) 0 i) (sft (body_abs df) 0 i) &&
    !(asBool (sft (doji df) 0 i))

/-- Pattern 11: high wave. -/
def high_wave (df : List Bar) : Series :=
  mask df fun i =>
    pltB (sft (body_abs df) 0 i) (pmul (sft (range df) 0 i) (num 0.2)) &&
    pgtB (sft (upper_shadow df) 0 i) (pmul (sft (range df) 0 i) (num 0.35)) &&
    pgtB (sft (lower_shadow df) 0 i) (pmul (sft (range df) 0 i) (num 0.35))

/-- Pattern 12a: bullish belt hold. -/
def bullish_belt_hold (df : List Bar) : Series :=
  mask df fun i =>
    asMask (sft (is_bullish df) 0 i) &&
    pltB (sft (lower_shadow df) 0 i) (pmul (sft (range df) 0 i) (num 0.05)) &&
    pgtB (sft (body_abs df) 0 i) (pmul (sft (avg_body df) 0 i) (num 1.5))

/-- Pattern 12b: bearish belt hold. -/
def bearish_belt_hold (df : List Bar) : Series :=
  mask df fun i =>
    asMask (sft (is_bearish df) 0 i) &&
    pltB (sft (upper_shadow df) 0 i) (pmul (sft (range df) 0 i) (num 0.05)) &&
    pgtB (sft (body_abs df) 0 i) (pmul (sft (avg_body df) 0 i) (num 1.5))

/-- Pattern 13: bullish engulfing. -/
def bullish_engulfing (df : List Bar) : Series :=
  mask df fun i =>
    asMask (sft (is_bearish df) 1 i) &&
    asMask (sft (is_bullish df) 0 i) &&
    pltB (sft (opens df) 0 i) (sft (closes df) 1 i) &&
    pgtB (sft (closes df) 0 i) (sft (opens df) 1 i) &&
    pgtB (sft (body_abs df) 0 i) (sft (body_abs df) 1 i)

/-- Pattern 14: bearish engulfing. -/
def bearish_engulfing (df : List Bar) : Series :=
  mask df fun i =>
    asMask (sft (is_bullish df) 1 i) &&
    asMask (sft (is_bearish df) 0 i) &&
    pgtB (sft (opens df) 0 i) (sft (closes df) 1 i) &&
    pltB (sft (closes df) 0 i) (sft (opens df) 1 i) &&
    pgtB (sft (body_abs df) 0 i) (sft (body_abs df) 1 i)

/-- Pattern 15: bullish harami. -/
def bullish_harami (df : List Bar) : Series :=
  mask df fun i =>
    asMask (sft (is_bearish df) 1 i) &&
    asMask (sft (is_bullish df) 0 i) &&
    pgtB (sft (opens df) 0 i) (sft (closes df) 1 i) &&
    pltB (sft (closes df) 0 i) (sft (opens df) 1 i) &&
    pltB (sft (body_abs df) 0 i) (pmul (sft (body_abs df) 1 i) (num 0.5))

/-- Pattern 16: bearish harami. -/
def bearish_harami (df : List Bar) : Series :=
  mask df fun i =>
    asMask (sft (is_bullish df) 1 i) &&
    asMask (sft (is_bearish df) 0 i) &&
    pltB (sft (opens df) 0 i) (sft (closes df) 1 i) &&
    pgtB (sft (closes df) 0 i) (sft (opens df) 1 i) &&
    pltB (sft (body_abs df) 0 i) (pmul (sft (body_abs df) 1 i) (num 0.5))

/-- Pattern 17a: bullish harami cross. -/
def bullish_harami_cross (df : List Bar) : Series :=
  mask df fun i =>
    asMask (sft (is_bearish df) 1 i) &&
    asMask (sft (doji df) 0 i) &&
    pltB (sft (highs df) 0 i) (sft (opens df) 1 i) &&
    pgtB (sft (lows df) 0 i) (sft (closes df) 1 i)

/-- Pattern 17b: bearish harami cross. -/
def bearish_harami_cross (df : List Bar) : Series :=
  mask df fun i =>
    asMask (sft (is_bullish df) 1 i) &&
    asMask (sft (doji df) 0 i) &&
    pltB (sft (highs df) 0 i) (sft (closes df) 1 i) &&
    pgtB (sft (lows df) 0 i) (sft (opens df) 1 i)

/-- Pattern 18: piercing line. -/
def piercing_line (df : List Bar) : Series :=
  mask df fun i =>
    asMask (sft (is_bearish df) 1 i) &&
    asMask (sft (is_bullish df) 0 i) &&
    pltB (sft (opens df) 0 i) (sft (lows df) 1 i) &&
    pgtB (sft (closes df) 0 i)
      (pdiv (padd (sft (opens df) 1 i) (sft (closes df) 1 i)) (num 2)) &&
    pltB (sft (closes df) 0 i) (sft (opens df) 1 i)

/-- Pattern 19: dark cloud cover. -/
def dark_cloud_cover (df : List Bar) : Series :=
  mask df fun i =>
    asMask (sft (is_bullish df) 1 i) &&
    asMask (sft (is_bearish df) 0 i) &&
    pgtB (sft (opens df) 0 i) (sft (highs df) 1 i) &&
    pltB (sft (closes df) 0 i)
      (pdiv (padd (sft (opens df) 1 i) (sft (closes df) 1 i)) (num 2)) &&
    pgtB (sft (closes df) 0 i) (sft (opens df) 1 i)

/-- Pattern 20: tweezer top. -/
def tweezer_top (df : List Bar) : Series :=
  mask df fun i =>
    asMask (sft (is_bullish df) 1 i) &&
    asMask (sft (is_bearish df) 0 i) &&
    pltB (pabs (psub (sft (highs df) 0 i) (sft (highs df) 1 i)))
      (pmul (sft (avg_range df) 0 i) (num 0.05))

/-- Pattern 21: tweezer bottom. -/
def tweezer_bottom (df : List Bar) : Series :=
  mask df fun i =>
    asMask (sft (is_bearish df) 1 i) &&
    asMask (sft (is_bullish df) 0 i) &&
    pltB (pabs (psub (sft (lows df) 0 i) (sft (lows df) 1 i)))
      (pmul (sft (avg_range df) 0 i) (num 0.05))

/-- Pattern 22a: bullish kicking. -/
def bullish_kicking (df : List Bar) : Series :=
  mask df fun i =>
    asBool (sft (bearish_marubozu df) 1 i) &&
    asBool (sft (bullish_marubozu df) 0 i) &&
    pgtB (sft (opens df) 0 i) (sft (opens df) 1 i)

/-- Pattern 22b: bearish kicking. -/
def bearish_kicking (df : List Bar) : Series :=
  mask df fun i =>
    asBool (sft (bullish_marubozu df) 1 i) &&
    asBool (sft (bearish_marubozu df) 0 i) &&
    pltB (sft (opens df) 0 i) (sft (opens df) 1 i)

/-- Pattern 23a: bullish meeting lines. -/
def bullish_meeting_lines (df : List Bar) : Series :=
  mask df fun i =>
    asMask (sft (is_bearish df) 1 i) &&
    asMask (sft (is_bullish df) 0 i) &&
    pltB (pabs (psub (sft (closes df) 0 i) (sft (closes df) 1 i)))
      (pmul (sft (avg_range df) 0 i) (num 0.03))

/-- Pattern 23b: bearish meeting lines. -/
def bearish_meeting_lines (df : List Bar) : Series :=
  mask df fun i =>
    asMask (sft (is_bullish df) 1 i) &&
    asMask (sft (is_bearish df) 0 i) &&
    pltB (pabs (psub (sft (closes df) 0 i) (sft (closes df) 1 i)))
      (pmul (sft (avg_range df) 0 i) (num 0.03))

/-- Pattern 24: morning star. -/
def morning_star (df : List Bar) : Series :=
  mask df fun i =>
    asMask (sft (is_bearish df) 2 i) &&
    pgtB (sft (body_abs df) 2 i) (sft (avg_body df) 0 i) &&
    pltB (sft (body_abs df) 1 i) (pmul (sft (avg_body df) 0 i) (num 0.5)) &&
    asMask (sft (is_bullish df) 0 i) &&
    pgtB (sft (closes df) 0 i)
      (pdiv (padd (sft (opens df) 2 i) (sft (closes df) 2 i)) (num 2))

/-- Pattern 25: evening star. -/
def evening_star (df : List Bar) : Series :=
  mask df fun i =>
    asMask (sft (is_bullish df) 2 i) &&
    pgtB (sft (body_abs df) 2 i) (sft (avg_body df) 0 i) &&
    pltB (sft (body_abs df) 1 i) (pmul (sft (avg_body df) 0 i) (num 0.5)) &&
    asMask (sft (is_bearish df) 0 i) &&
    pltB (sft (closes df) 0 i)
      (pdiv (padd (sft (opens df) 2 i) (sft (closes df) 2 i)) (num 2))

/-- Pattern 26: morning doji star. -/
def morning_doji_star (df : List Bar) : Series :=
  mask df fun i =>
    asMask (sft (is_bearish df) 2 i) &&
    asBool (sft (doji df) 1 i) &&
    asMask (sft (is_bullish df) 0 i) &&
    pgtB (sft (closes df) 0 i)
      (pdiv (padd (sft (opens df) 2 i) (sft (closes df) 2 i)) (num 2))

/-- Pattern 27: evening doji star. -/
def evening_doji_star (df : List Bar) : Series :=
  mask df fun i =>
    asMask (sft (is_bullish df) 2 i) &&
    asBool (sft (doji df) 1 i) &&
    asMask (sft (is_bearish df) 0 i) &&
    pltB (sft (closes df) 0 i)
      (pdiv (padd (sft (opens df) 2 i) (sft (closes df) 2 i)) (num 2))

/-- Pattern 28: three white soldiers. -/
def three_white_soldiers (df : List Bar) : Series :=
  mask df fun i =>
    asMask (sft (is_bullish df) 0 i) &&
    asMask (sft (is_bullish df) 1 i) &&
    asMask (sft (is_bullish df) 2 i) &&
    pgtB (sft (closes df) 0 i) (sft (closes df) 1 i) &&
    pgtB (sft (closes df) 1 i) (sft (closes df) 2 i) &&
    pgtB (sft (opens df) 0 i) (sft (opens df) 1 i) &&
    pgtB (sft (opens df) 1 i) (sft (opens df) 2 i) &&
    pltB (sft (upper_shadow df) 0 i) (pmul (sft (body_abs df) 0 i) (num 0.3)) &&
    pltB (sft (upper_shadow df) 1 i) (pmul (sft (body_abs df) 1 i) (num 0.3))

/-- Pattern 29: three black crows. -/
def three_black_crows (df : List Bar) : Series :=
  mask df fun i =>
    asMask (sft (is_bearish df) 0 i) &&
    asMask (sft (is_bearish df) 1 i) &&
    asMask (sft (is_bearish df) 2 i) &&
    pltB (sft (closes df) 0 i) (sft (closes df) 1 i) &&
    pltB (sft (closes df) 1 i) (sft (closes df) 2 i) &&
    pltB (sft (opens df) 0 i) (sft (opens df) 1 i) &&
    pltB (sft (opens df) 1 i) (sft (opens df) 2 i) &&
    pltB (sft (lower_shadow df) 0 i) (pmul (sft (body_abs df) 0 i) (num 0.3)) &&
    pltB (sft (lower_shadow df) 1 i) (pmul (sft (body_abs df) 1 i) (num 0.3))

/-- Pattern 30: three inside up. -/
def three_inside_up (df : List Bar) : Series :=
  mask df fun i =>
    asBool (sft (bullish_harami df) 1 i) &&
    asMask (sft (is_bullish df) 0 i) &&
    pgtB (sft (closes df) 0 i) (sft (highs df) 2 i)

/-- Pattern 31: three inside down. -/
def three_inside_down (df : List Bar) : Series :=
  mask df fun i =>
    asBool (sft (bearish_harami df) 1 i) &&
    asMask (sft (is_bearish df) 0 i) &&
    pltB (sft (closes df) 0 i) (sft (lows df) 2 i)

/-- Pattern 32: three outside up. -/
def three_outside_up (df : List Bar) : Series :=
  mask df fun i =>
    asBool (sft (bullish_engulfing df) 1 i) &&
    asMask (sft (is_bullish df) 0 i) &&
    pgtB (sft (closes df) 0 i) (sft (closes df) 1 i)

/-- Pattern 33: three outside down. -/
def three_outside_down (df : List Bar) : Series :=
  mask df fun i =>
    asBool (sft (bearish_engulfing df) 1 i) &&
    asMask (sft (is_bearish df) 0 i) &&
    pltB (sft (closes df) 0 i) (sft (closes df) 1 i)

/-- Pattern 34a: bullish abandoned baby. -/
def bullish_abandoned_baby (df : List Bar) : Series :=
  mask df fun i =>
    asMask (sft (is_bearish df) 2 i) &&
    asBool (sft (doji df) 1 i) &&
    pgtB (sft (lows df) 1 i) (sft (highs df) 2 i) &&
    asMask (sft (is_bullish df) 0 i) &&
    pgtB (sft (lows df) 0 i) (sft (highs df) 1 i)

/-- Pattern 34b: bearish abandoned baby. -/
def bearish_abandoned_baby (df : List Bar) : Series :=
  mask df fun i =>
    asMask (sft (is_bullish df) 2 i) &&
    asBool (sft (doji df) 1 i) &&
    pltB (sft (highs df) 1 i) (sft (lows df) 2 i) &&
    asMask (sft (is_bearish df) 0 i) &&
    pltB (sft (highs df) 0 i) (sft (lows df) 1 i)

/-- Pattern 35a: bullish tri-star. -/
def bullish_tri_star (df : List Bar) : Series :=
  mask df fun i =>
    asMask (sft (doji df) 0 i) &&
    asBool (sft (doji df) 1 i) &&
    asBool (sft (doji df) 2 i) &&
    pltB (sft (lows df) 1 i) (sft (lows df) 2 i) &&
    pgtB (sft (lows df) 0 i) (sft (lows df) 1 i)

/-- Pattern 35b: bearish tri-star. -/
def bearish_tri_star (df : List Bar) : Series :=
  mask df fun i =>
    asMask (sft (doji df) 0 i) &&
    asBool (sft (doji df) 1 i) &&
    asBool (sft (doji df) 2 i) &&
    pgtB (sft (highs df) 1 i) (sft (highs df) 2 i) &&
    pltB (sft (highs df) 0 i) (sft (highs df) 1 i)

/-- Pattern 36: rising three methods. -/
def rising_three_methods (df : List Bar) : Series :=
  mask df fun i =>
    asMask (sft (is_bullish df) 4 i) &&
    pgtB (sft (body_abs df) 4 i) (sft (avg_body df) 0 i) &&
    asMask (sft (is_bearish df) 3 i) &&
    asMask (sft (is_bearish df) 2 i) &&
    asMask (sft (is_bearish df) 1 i) &&
    pgtB (sft (lows df) 1 i) (sft (lows df) 4 i) &&
    pltB (sft (highs df) 1 i) (sft (highs df) 4 i) &&
    asMask (sft (is_bullish df) 0 i) &&
    pgtB (sft (closes df) 0 i) (sft (closes df) 4 i)

/-- Pattern 37: falling three methods. -/
def falling_three_methods (df : List Bar) : Series :=
  mask df fun i =>
    asMask (sft (is_bearish df) 4 i) &&
    pgtB (sft (body_abs df) 4 i) (sft (avg_body df) 0 i) &&
    asMask (sft (is_bullish df) 3 i) &&
    asMask (sft (is_bullish df) 2 i) &&
    asMask (sft (is_bullish df) 1 i) &&
    pltB (sft (highs df) 1 i) (sft (highs df) 4 i) &&
    pgtB (sft (lows df) 1 i) (sft (lows df) 4 i) &&
    asMask (sft (is_bearish df) 0 i) &&
    pltB (sft (closes df) 0 i) (sft (closes df) 4 i)

/-- Pattern 38: upside gap two crows. -/
def upside_gap_two_crows (df : List Bar) : Series :=
  mask df fun i =>
    asMask (sft (is_bullish df) 2 i) &&
    asMask (sft (is_bearish df) 1 i) &&
    pgtB (sft (opens df) 1 i) (sft (closes df) 2 i) &&
    asMask (sft (is_bearish df) 0 i) &&
    pgtB (sft (opens df) 0 i) (sft (opens df) 1 i) &&
    pltB (sft (closes df) 0 i) (sft (closes df) 1 i) &&
    pgtB (sft (closes df) 0 i) (sft (closes df) 2 i)

/-- Pattern 39: mat hold. -/
def mat_hold (df : List Bar) : Series :=
  mask df fun i =>
    asMask (sft (is_bullish df) 4 i) &&
    pgtB (sft (body_abs df) 4 i) (sft (avg_body df) 0 i) &&
    pgtB (sft (opens df) 3 i) (sft (closes df) 4 i) &&
    asMask (sft (is_bearish df) 2 i) &&
    asMask (sft (is_bearish df) 1 i) &&
    pgtB (sft (lows df) 1 i) (sft (lows df) 4 i) &&
    asMask (sft (is_bullish df) 0 i) &&
    pgtB (sft (closes df) 0 i) (sft (highs df) 4 i)

/-- Pattern 40: bullish breakaway. -/
def bullish_breakaway (df : List Bar) : Series :=
  mask df fun i =>
    asMask (sft (is_bearish df) 4 i) &&
    asMask (sft (is_bearish df) 3 i) &&
    pltB (sft (opens df) 3 i) (sft (closes df) 4 i) &&
    asMask (sft (is_bearish df) 2 i) &&
    pltB (sft (body_abs df) 1 i) (pmul (sft (avg_body df) 0 i) (num 0.5)) &&
    asMask (sft (is_bullish df) 0 i) &&
    pgtB (sft (closes df) 0 i) (sft (closes df) 3 i) &&
    pltB (sft (closes df) 0 i) (sft (closes df) 4 i)

/-- Pattern 41: on-neck line. -/
def on_neck_line (df : List Bar) : Series :=
  mask df fun i =>
    asMask (sft (is_bearish df) 1 i) &&
    asMask (sft (is_bullish df) 0 i) &&
    pltB (sft (opens df) 0 i) (sft (lows df) 1 i) &&
    pltB (pabs (psub (sft (closes df) 0 i) (sft (lows df) 1 i)))
      (pmul (sft (avg_range df) 0 i) (num 0.03))

/-- Pattern 42: in-neck line. -/
def in_neck_line (df : List Bar) : Series :=
  mask df fun i =>
    asMask (sft (is_bearish df) 1 i) &&
    asMask (sft (is_bullish df) 0 i) &&
    pltB (sft (opens df) 0 i) (sft (lows df) 1 i) &&
    pgtB (sft (closes df) 0 i) (sft (lows df) 1 i) &&
    pltB (sft (closes df) 0 i)
      (padd (sft (closes df) 1 i) (pmul (sft (body_abs df) 1 i) (num 0.2)))

/-- Pattern 43: thrusting line. -/
def thrusting_line (df : List Bar) : Series :=
  mask df fun i =>
    asMask (sft (is_bearish df) 1 i) &&
    asMask (sft (is_bullish df) 0 i) &&
    pltB (sft (opens df) 0 i) (sft (lows df) 1 i) &&
    pgtB (sft (closes df) 0 i) (sft (closes df) 1 i) &&
    pltB (sft (closes df) 0 i)
      (pdiv (padd (sft (opens df) 1 i) (sft (closes df) 1 i)) (num 2))

/-- Pattern 44: advance block. -/
def advance_block (df : List Bar) : Series :=
  mask df fun i =>
    asMask (sft (is_bullish df) 0 i) &&
    asMask (sft (is_bullish df) 1 i) &&
    asMask (sft (is_bullish df) 2 i) &&
    pltB (sft (body_abs df) 0 i) (sft (body_abs df) 1 i) &&
    pltB (sft (body_abs df) 1 i) (sft (body_abs df) 2 i) &&
    pgtB (sft (upper_shadow df) 0 i) (sft (upper_shadow df) 1 i)

/-- Pattern 45: deliberation. -/
def deliberation (df : List Bar) : Series :=
  mask df fun i =>
    asMask (sft (is_bullish df) 0 i) &&
    asMask (sft (is_bullish df) 1 i) &&
    asMask (sft (is_bullish df) 2 i) &&
    pgtB (sft (body_abs df) 2 i) (sft (avg_body df) 0 i) &&
    pgtB (sft (body_abs df) 1 i) (sft (avg_body df) 0 i) &&
    pltB (sft (body_abs df) 0 i) (pmul (sft (avg_body df) 0 i) (num 0.5))

/-- Pattern 46: up gap. -/
def up_gap (df : List Bar) : Series :=
  mask df fun i => pgtB (sft (lows df) 0 i) (sft (highs df) 1 i)

/-- Pattern 47: down gap. -/
def down_gap (df : List Bar) : Series :=
  mask df fun i => pltB (sft (highs df) 0 i) (sft (lows df) 1 i)

/-- Pattern 48a: upward tasuki gap. -/
def upward_tasuki_gap (df : List Bar) : Series :=
  mask df fun i =>
    asMask (sft (is_bullish df) 2 i) &&
    asMask (sft (is_bullish df) 1 i) &&
    pgtB (sft (lows df) 1 i) (sft (highs df) 2 i) &&
    asMask (sft (is_bearish df) 0 i) &&
    pgtB (sft (opens df) 0 i) (sft (opens df) 1 i) &&
    pltB (sft (closes df) 0 i) (sft (closes df) 1 i) &&
    pgtB (sft (closes df) 0 i) (sft (highs df) 2 i)

/-- Pattern 48b: downward tasuki gap. -/
def downward_tasuki_gap (df : List Bar) : Series :=
  mask df fun i =>
    asMask (sft (is_bearish df) 2 i) &&
    asMask (sft (is_bearish df) 1 i) &&
    pltB (sft (highs df) 1 i) (sft (lows df) 2 i) &&
    asMask (sft (is_bullish df) 0 i) &&
    pltB (sft (opens df) 0 i) (sft (opens df) 1 i) &&
    pgtB (sft (closes df) 0 i) (sft (closes df) 1 i) &&
    pltB (sft (closes df) 0 i) (sft (lows df) 2 i)

/-- Pattern 49: side-by-side white lines. -/
def side_by_side_white (df : List Bar) : Series :=
  mask df fun i =>
    asMask (sft (is_bullish df) 2 i) &&
    asMask (sft (is_bullish df) 1 i) &&
    asMask (sft (is_bullish df) 0 i) &&
    pgtB (sft (lows df) 1 i) (sft (highs df) 2 i) &&
    pltB (pabs (psub (sft (opens df) 0 i) (sft (opens df) 1 i)))
      (pmul (sft (avg_range df) 0 i) (num 0.05)) &&
    pltB (pabs (psub (sft (closes df) 0 i) (sft (closes df) 1 i)))
      (pmul (sft (avg_range df) 0 i) (num 0.05))

/-- Pattern 50: stick sandwich. -/
def stick_sandwich (df : List Bar) : Series :=
  mask df fun i =>
    asMask (sft (is_bearish df) 2 i) &&
    asMask (sft (is_bullish df) 1 i) &&
    asMask (sft (is_bearish df) 0 i) &&
    pltB (pabs (psub (sft (closes df) 0 i) (sft (closes df) 2 i)))
      (pmul (sft (avg_range df) 0 i) (num 0.03))

/-- The bullish pattern-name list of the scoring step, in source order. -/
def bullish_patterns : List String :=
  ["dragonfly_doji", "hammer", "inverted_hammer", "bullish_marubozu",
   "bullish_belt_hold", "bullish_engulfing", "bullish_harami",
   "bullish_harami_cross", "piercing_line", "tweezer_bottom",
   "bullish_kicking", "bullish_meeting_lines", "morning_star",
   "morning_doji_star", "three_white_soldiers", "three_inside_up",
   "three_outside_up", "bullish_abandoned_baby", "bullish_tri_star",
   "rising_three_methods", "mat_hold", "bullish_breakaway",
   "upward_tasuki_gap", "side_by_side_white", "stick_sandwich", "up_gap"]

/-- The bearish pattern-name list of the scoring step, in source order. -/
def bearish_patterns : List String :=
  ["gravestone_doji", "hanging_man", "shooting_star", "bearish_marubozu",
   "bearish_belt_hold", "bearish_engulfing", "bearish_harami",
   "bearish_harami_cross", "dark_cloud_cover", "tweezer_top",
   "bearish_kicking", "bearish_meeting_lines", "evening_star",
   "evening_doji_star", "three_black_crows", "three_inside_down",
   "three_outside_down", "bearish_abandoned_baby", "bearish_tri_star",
   "falling_three_methods", "upside_gap_two_crows", "on_neck_line",
   "in_neck_line", "advance_block", "deliberation",
   "downward_tasuki_gap", "down_gap"]

/-- `df[p]` for the pattern columns used by the scoring step. -/
def patternCol (df : List Bar) : String → Series
  | "doji" => doji df
  | "long_legged_doji" => long_legged_doji df
  | "dragonfly_doji" => dragonfly_doji df
  | "gravestone_doji" => gravestone_doji df
  | "hammer" => hammer df
  | "inverted_hammer" => inverted_hammer df
  | "hanging_man" => hanging_man df
  | "shooting_star" => shooting_star df
  | "bullish_marubozu" => bullish_marubozu df
  | "bearish_marubozu" => bearish_marubozu df
  | "spinning_top" => spinning_top df
  | "high_wave" => high_wave df
  | "bullish_belt_hold" => bullish_belt_hold df
  | "bearish_belt_hold" => bearish_belt_hold df
  | "bullish_engulfing" => bullish_engulfing df
  | "bearish_engulfing" => bearish_engulfing df
  | "bullish_harami" => bullish_harami df
  | "bearish_harami" => bearish_harami df
  | "bullish_harami_cross" => bullish_harami_cross df
  | "bearish_harami_cross" => bearish_harami_cross df
  | "piercing_line" => piercing_line df
  | "dark_cloud_cover" => dark_cloud_cover df
  | "tweezer_top" => tweezer_top df
  | "tweezer_bottom" => tweezer_bottom df
  | "bullish_kicking" => bullish_kicking df
  | "bearish_kicking" => bearish_kicking df
  | "bullish_meeting_lines" => bullish_meeting_lines df
  | "bearish_meeting_lines" => bearish_meeting_lines df
  | "morning_star" => morning_star df
  | "evening_star" => evening_star df
  | "morning_doji_star" => morning_doji_star df
  | "evening_doji_star" => evening_doji_star df
  | "three_white_soldiers" => three_white_soldiers df
  | "three_black_crows" => three_black_crows df
  | "three_inside_up" => three_inside_up df
  | "three_inside_down" => three_inside_down df
  | "three_outside_up" => three_outside_up df
  | "three_outside_down" => three_outside_down df
  | "bullish_abandoned_baby" => bullish_abandoned_baby df
  | "bearish_abandoned_baby" => bearish_abandoned_baby df
  | "bullish_tri_star" => bullish_tri_star df
  | "bearish_tri_star" => bearish_tri_star df
  | "rising_three_methods" => rising_three_methods df
  | "falling_three_methods" => falling_three_methods df
  | "upside_gap_two_crows" => upside_gap_two_crows df
  | "mat_hold" => mat_hold df
  | "bullish_breakaway" => bullish_breakaway df
  | "on_neck_line" => on_neck_line df
  | "in_neck_line" => in_neck_line df
  | "thrusting_line" => thrusting_line df
  | "advance_block" => advance_block df
  | "deliberation" => deliberation df
  | "up_gap" => up_gap df
  | "down_gap" => down_gap df
  | "upward_tasuki_gap" => upward_tasuki_gap df
  | "downward_tasuki_gap" => downward_tasuki_gap df
  | "side_by_side_white" => side_by_side_white df
  | "stick_sandwich" => stick_sandwich df
  | _ => []

/-- Substring occurrence on character lists. -/
def occursAux (n : List Char) : List Char → Bool
  | [] => n.isEmpty
  | c :: rest => List.isPrefixOf n (c :: rest) || occursAux n rest

/-- Python's `needle in hay` on strings. -/
def strContains (hay needle : String) : Bool := occursAux needle.toList hay.toList

/-- The scoring weight: 2 for names containing `engulfing` or `star`,
1 otherwise. -/
def weight (p : String) : ℚ :=
  if strContains p "engulfing" || strContains p "star" then 2 else 1

/-- `fillna(0)` on a column. -/
def fillna0 (s : Series) : Series := s.map fun x => if x.isNan then num 0 else x

/-- `sum(df[p].fillna(0) * weight(p) for p in ps)` starting from scalar 0. -/
def weightedSum (df : List Bar) (ps : List String) : Series :=
  ps.foldl
    (fun acc p =>
      lift2 padd acc ((fillna0 (patternCol df p)).map fun x => pmul x (num (weight p))))
    (List.replicate df.length (num 0))

/-- `df['bullish_pattern_score']`. -/
def bullish_pattern_score (df : List Bar) : Series := weightedSum df bullish_patterns

/-- `df['bearish_pattern_score']`. -/
def bearish_pattern_score (df : List Bar) : Series := weightedSum df bearish_patterns

/-- `df['pattern_score']`: `(bull - bear)/(bull + bear + 1)*100`, `fillna(0)`. -/
def pattern_score (df : List Bar) : Series :=
  fillna0 (lift2
    (fun b s => pmul (pdiv (psub b s) (padd (padd b s) (num 1))) (num 100))
    (bullish_pattern_score df) (bearish_pattern_score df))

end candlestick

/-! ## `app/features/technical_indicators.py` (`TechnicalIndicators`) -/

namespace TechnicalIndicators

open PF Series

/-- Tail of the OBV loop: carry the previous OBV value and previous close. -/
def obvGo (prev cprev : ℚ) : List ℚ → List ℚ → List ℚ
  | c :: cs, v :: vs =>
      let cur := if c > cprev then prev + v else if c < cprev then prev - v else prev
      cur :: obvGo cur c cs vs
  | _, _ => []

/-- `TechnicalIndicators.obv`: `obv[0] = volume[0]`, then add the bar volume
on a higher close, subtract it on a lower close, hold on an equal close. -/
def obv : List ℚ → List ℚ → List ℚ
  | c :: cs, v :: vs => v :: obvGo v c cs vs
  | _, _ => []

/-- `TechnicalIndicators.rsi`: rolling-mean average gain/loss (simple mean,
not ewm), then `100 - 100/(1+rs)`. -/
def rsi (close : Series) (period : ℕ) : Series :=
  let delta := diff1 close
  let gain := delta.map fun d => if pgtB d (num 0) then d else num 0
  let loss := (delta.map fun d => if pltB d (num 0) then d else num 0).map pneg
  let avg_gain := rollingAgg period aggMean gain
  let avg_loss := rollingAgg period aggMean loss
  let rs := lift2 pdiv avg_gain avg_loss
  rs.map fun r => psub (num 100) (pdiv (num 100) (padd (num 1) r))

end TechnicalIndicators

/-! ## Concrete inputs used by witnesses and counterexamples -/

/-- The §8 synthetic bar: `open=100, close=100.01, high=100.02, low=99.99`. -/
def dojiBar : Bar := ⟨100, 100.02, 99.99, 100.01, 1000⟩

/-- A constant bar (all prices 1, volume 1). -/
def constBar : Bar := ⟨1, 1, 1, 1, 1⟩

/-- 252 constant bars: the shortest series the pipeline accepts. -/
def const252 : List Bar := List.replicate 252 constBar

/-- 10 constant bars: below the 252-row minimum. -/
def const10 : List Bar := List.replicate 10 constBar

/-- The OBV step of the claim: add volume on a higher close, subtract on a
lower close, hold on an equal close. -/
def obvStep (p cprev c v : ℚ) : ℚ :=
  if c > cprev then p + v else if c < cprev then p - v else p

/-- The FeatureTable that claims C2 and C4 describe (written from the spec,
for comparison with `generate_features`): the selected schema columns with
one row per input row, 1:1 aligned and carrying per-cell undefined markers,
no row removed. -/
def specAlignedTable (df : List Bar) (include_target : Bool) :
    pipeline.FeatureTable :=
  pipeline.FeatureTable.mk (pipeline.feature_cols df include_target)
    (pipeline.aligned_rows df include_target)

/-! ## Claim theorems -/

section decideSection

attribute [local semireducible] Rat.add Rat.mul Rat.inv Rat.sub Rat.ofScientific

/-- C8 counterexample: on the bar `open=100, close=100.01, high=100.02,
low=99.99` the detector computes `doji = 0`, not `1` as claimed — the body
(0.01) is one third of the range (0.03), above the 10% doji threshold. -/
theorem C8_counterexample :
    candlestick.doji [dojiBar] ≠ [PF.num 1] ∧ candlestick.doji [dojiBar] = [PF.num 0] := by
  decide

/-- C8 (amended): for the bar `open=100, close=100.01, high=100.02,
low=99.99`, the detector sets the doji flag to 0 (the body is one third of
the range, not below the 10% threshold) and every other single-candle
pattern flag to 0 as well. -/
theorem C8_amended :
    candlestick.doji [dojiBar] = [PF.num 0] ∧
    candlestick.long_legged_doji [dojiBar] = [PF.num 0] ∧
    candlestick.dragonfly_doji [dojiBar] = [PF.num 0] ∧
    candlestick.gravestone_doji [dojiBar] = [PF.num 0] ∧
    candlestick.hammer [dojiBar] = [PF.num 0] ∧
    candlestick.inverted_hammer [dojiBar] = [PF.num 0] ∧
    candlestick.hanging_man [dojiBar] = [PF.num 0] ∧
    candlestick.shooting_star [dojiBar] = [PF.num 0] ∧
    candlestick.bullish_marubozu [dojiBar] = [PF.num 0] ∧
    candlestick.bearish_marubozu [dojiBar] = [PF.num 0] ∧
    candlestick.spinning_top [dojiBar] = [PF.num 0] ∧
    candlestick.high_wave [dojiBar] = [PF.num 0] ∧
    candlestick.bullish_belt_hold [dojiBar] = [PF.num 0] ∧
    candlestick.bearish_belt_hold [dojiBar] = [PF.num 0] := by
  decide

/-- C9 counterexample: the volume-module OBV (`calculate_obv`, the variant
used by the feature pipeline) does not produce the claimed sequence
`[100,200,100,100,200]` on closes `[10,11,10,10,12]` with volumes 100: its
first cell is undefined and the first bar's volume is never added. -/
theorem C9_counterexample :
    volume.calculate_obv ([10, 11, 10, 10, 12].map PF.num)
        ([100, 100, 100, 100, 100].map PF.num) ≠
      ([100, 200, 100, 100, 200].map PF.num) ∧
    volume.calculate_obv ([10, 11, 10, 10, 12].map PF.num)
        ([100, 100, 100, 100, 100].map PF.num) =
      [PF.nan, PF.num 100, PF.num 0, PF.num 0, PF.num 100] := by
  decide


/-- The loop body of `TechnicalIndicators.obv` satisfies the OBV recurrence
cell by cell. -/
theorem obvGo_recurrence :
    ∀ (cs vs : List ℚ) (p c : ℚ) (i : ℕ), cs.length = vs.length → i + 1 < cs.length →
      (TechnicalIndicators.obvGo p c cs vs).getD (i + 1) 0 =
        obvStep ((TechnicalIndicators.obvGo p c cs vs).getD i 0)
          (cs.getD i 0) (cs.getD (i + 1) 0) (vs.getD (i + 1) 0) := by
  intro cs
  induction cs with
  | nil => intro vs p c i _ h; simp at h
  | cons x cs ih =>
    intro vs p c i hlen hi
    match vs with
    | [] => simp at hlen
    | y :: vs =>
      simp only [List.length_cons, Nat.succ.injEq] at hlen
      match i with
      | 0 =>
        simp only [List.length_cons] at hi
        match cs, vs, hlen with
        | z :: cs, w :: vs, _ =>
          simp [TechnicalIndicators.obvGo, obvStep]
      | j + 1 =>
        have hj : j + 1 < cs.length := by
          simp only [List.length_cons] at hi; omega
        have h2 := ih vs (if x > c then p + y else if x < c then p - y else p) x j hlen hj
        simpa [TechnicalIndicators.obvGo] using h2

/-- C9 (amended): `TechnicalIndicators.obv` is the running sum with
`obv[0] = volume[0]` that adds the bar volume on a higher close, subtracts
it on a lower close and holds on an equal close, and on closes
`[10,11,10,10,12]` with all volumes 100 it produces `[100,200,100,100,200]`;
the volume-module variant `calculate_obv` instead leaves the first cell
undefined and never counts the first bar's volume (see the
counterexample). -/
theorem C9_amended :
    (∀ (c v : List ℚ) (i : ℕ), c.length = v.length → i + 1 < c.length →
      (TechnicalIndicators.obv c v).getD (i + 1) 0 =
        obvStep ((TechnicalIndicators.obv c v).getD i 0)
          (c.getD i 0) (c.getD (i + 1) 0) (v.getD (i + 1) 0)) ∧
    (∀ (c0 v0 : ℚ) (cs vs : List ℚ),
      (TechnicalIndicators.obv (c0 :: cs) (v0 :: vs)).getD 0 0 = v0) ∧
    TechnicalIndicators.obv [10, 11, 10, 10, 12] [100, 100, 100, 100, 100] =
      [100, 200, 100, 100, 200] := by
  refine ⟨?_, ?_, by decide⟩
  · intro c v i hlen hi
    match c, v with
    | [], _ => simp at hi
    | x :: cs, [] => simp at hlen
    | x :: cs, y :: vs =>
      simp only [List.length_cons, Nat.succ.injEq] at hlen
      match i with
      | 0 =>
        simp only [List.length_cons] at hi
        match cs, vs, hlen with
        | z :: cs, w :: vs, _ =>
          simp [TechnicalIndicators.obv, TechnicalIndicators.obvGo, obvStep]
      | j + 1 =>
        have hj : j + 1 < cs.length := by
          simp only [List.length_cons] at hi; omega
        have h2 := obvGo_recurrence cs vs y x j hlen hj
        simpa [TechnicalIndicators.obv] using h2
  · intro c0 v0 cs vs
    simp [TechnicalIndicators.obv]

/-- C9 witness: the recurrence theorem applied to the concrete series
`[10,11]` with volumes `[100,100]` at the first step. -/
theorem C9_witness :
    (([10, 11] : List ℚ).length = ([100, 100] : List ℚ).length ∧
      0 + 1 < ([10, 11] : List ℚ).length) ∧
    (TechnicalIndicators.obv [10, 11] [100, 100]).getD (0 + 1) 0 =
      obvStep ((TechnicalIndicators.obv [10, 11] [100, 100]).getD 0 0)
        (([10, 11] : List ℚ).getD 0 0) (([10, 11] : List ℚ).getD (0 + 1) 0)
        (([100, 100] : List ℚ).getD (0 + 1) 0) :=
  ⟨⟨by decide, by decide⟩, C9_amended.1 [10, 11] [100, 100] 0 (by decide) (by decide)⟩

end decideSection

open PF Series

/-- Every pattern column named in the scoring lists is a 0/1 mask column. -/
theorem patternCol_is_mask : ∀ (df : List Bar) (p : String),
    p ∈ candlestick.bullish_patterns ∨ p ∈ candlestick.bearish_patterns →
    ∃ f, candlestick.patternCol df p = candlestick.mask df f := by
  intro df p hp
  rcases hp with hp | hp <;> fin_cases hp <;> exact ⟨_, rfl⟩

/-- Scoring weights are positive. -/
theorem weight_pos : ∀ p, 0 < candlestick.weight p := by
  intro p
  unfold candlestick.weight
  split <;> norm_num

theorem mask_length : ∀ df f, (candlestick.mask df f).length = df.length := by
  intro df f; simp [candlestick.mask]

theorem mask_getD : ∀ df f i, i < df.length →
    (candlestick.mask df f).getD i PF.nan = ofBool (f i) := by
  intro df f i hi
  simp [candlestick.mask, List.getD_eq_getElem?_getD, List.getElem?_map,
    List.getElem?_range, hi]

theorem getD_lift2 (f : PF → PF → PF) (a b : Series) (i : ℕ)
    (ha : i < a.length) (hb : i < b.length) :
    (lift2 f a b).getD i PF.nan = f (a.getD i PF.nan) (b.getD i PF.nan) := by
  have hz : i < (lift2 f a b).length := by
    simp [lift2, List.length_zipWith]; omega
  rw [List.getD_eq_getElem _ _ hz, List.getD_eq_getElem _ _ ha, List.getD_eq_getElem _ _ hb]
  simp [lift2, List.getElem_zipWith]

theorem fillmask_getD : ∀ (df : List Bar) (g : ℕ → Bool) (w : ℚ) (i : ℕ), i < df.length →
    ((candlestick.fillna0 (candlestick.mask df g)).map
      fun x => pmul x (num w)).getD i PF.nan = PF.num ((if g i then 1 else 0) * w) := by
  intro df g w i hi
  have h1 : i < (candlestick.fillna0 (candlestick.mask df g)).length := by
    simp [candlestick.fillna0, mask_length, hi]
  have h2 : i < ((candlestick.fillna0 (candlestick.mask df g)).map
      fun x => pmul x (num w)).length := by simp [h1]
  rw [List.getD_eq_getElem _ _ h2]
  simp only [List.getElem_map, candlestick.fillna0]
  have hm : i < (candlestick.mask df g).length := by simp [mask_length, hi]
  have hval : (candlestick.mask df g)[i] = ofBool (g i) := by
    have := mask_getD df g i hi
    rwa [List.getD_eq_getElem _ _ hm] at this
  rw [hval]
  cases hg : g i <;> simp [ofBool, isNan, pmul]

theorem weightedSumAux_spec : ∀ (ps : List String) (df : List Bar) (acc : Series),
    (∀ p ∈ ps, ∃ f, candlestick.patternCol df p = candlestick.mask df f) →
    acc.length = df.length →
    (∀ i, i < df.length → ∃ q : ℚ, acc.getD i PF.nan = PF.num q ∧ 0 ≤ q) →
    (ps.foldl
      (fun acc p =>
        lift2 padd acc
          ((candlestick.fillna0 (candlestick.patternCol df p)).map
            fun x => pmul x (num (candlestick.weight p)))) acc).length = df.length ∧
    ∀ i, i < df.length →
      ∃ q : ℚ,
        (ps.foldl
          (fun acc p =>
            lift2 padd acc
              ((candlestick.fillna0 (candlestick.patternCol df p)).map
                fun x => pmul x (num (candlestick.weight p)))) acc).getD i PF.nan = PF.num q ∧
        0 ≤ q := by
  intro ps
  induction ps with
  | nil => intro df acc _ hlen hcell; exact ⟨hlen, hcell⟩
  | cons p ps ih =>
    intro df acc hps hlen hcell
    simp only [List.foldl_cons]
    obtain ⟨f, hf⟩ := hps p (List.mem_cons_self p ps)
    rw [hf]
    have hcollen : ((candlestick.fillna0 (candlestick.mask df f)).map
        fun x => pmul x (num (candlestick.weight p))).length = df.length := by
      simp [candlestick.fillna0, mask_length]
    apply ih df _ (fun q hq => hps q (List.mem_cons_of_mem p hq))
    · simp [lift2, List.length_zipWith, hlen, hcollen]
    · intro i hi
      obtain ⟨q, hq, hq0⟩ := hcell i hi
      rw [getD_lift2 _ _ _ i (by omega) (by rw [hcollen]; exact hi)]
      rw [hq, fillmask_getD df f _ i hi]
      refine ⟨q + (if f i then 1 else 0) * candlestick.weight p, by simp [padd], ?_⟩
      have hw := (weight_pos p).le
      have : (0 : ℚ) ≤ (if f i then 1 else 0) * candlestick.weight p := by
        split <;> simp [hw]
      linarith

theorem fillna0_getD (xs : Series) (i : ℕ) (hi : i < xs.length) :
    (candlestick.fillna0 xs).getD i PF.nan =
      if (xs.getD i PF.nan).isNan then PF.num 0 else xs.getD i PF.nan := by
  have h1 : i < (candlestick.fillna0 xs).length := by simp [candlestick.fillna0, hi]
  rw [List.getD_eq_getElem _ _ h1, List.getD_eq_getElem _ _ hi]
  simp [candlestick.fillna0]

/-- C7: the net pattern score is `(bull - bear)/(bull + bear + 1) * 100` in
exact arithmetic, the weighted scores are finite and nonnegative, and with no
bullish and no bearish hits the score is 0. -/
theorem C7_pattern_score :
    ∀ (df : List Bar) (i : ℕ), i < df.length →
      ∃ b s : ℚ, 0 ≤ b ∧ 0 ≤ s ∧
        (candlestick.bullish_pattern_score df).getD i PF.nan = PF.num b ∧
        (candlestick.bearish_pattern_score df).getD i PF.nan = PF.num s ∧
        (candlestick.pattern_score df).getD i PF.nan =
          PF.num ((b - s) / (b + s + 1) * 100) ∧
        (b = 0 → s = 0 → (candlestick.pattern_score df).getD i PF.nan = PF.num 0) := by
  intro df i hi
  have hzlen : (List.replicate df.length (PF.num 0) : Series).length = df.length := by simp
  have hzcell : ∀ j, j < df.length →
      ∃ q : ℚ, (List.replicate df.length (PF.num 0) : Series).getD j PF.nan = PF.num q ∧ 0 ≤ q := by
    intro j hj
    refine ⟨0, ?_, le_refl 0⟩
    rw [List.getD_eq_getElem _ _ (by simpa using hj)]
    simp
  have hbull := weightedSumAux_spec candlestick.bullish_patterns df _
    (fun p hp => patternCol_is_mask df p (Or.inl hp)) hzlen hzcell
  have hbear := weightedSumAux_spec candlestick.bearish_patterns df _
    (fun p hp => patternCol_is_mask df p (Or.inr hp)) hzlen hzcell
  obtain ⟨b, hb, hb0⟩ := hbull.2 i hi
  obtain ⟨s, hs, hs0⟩ := hbear.2 i hi
  have hblen : (candlestick.bullish_pattern_score df).length = df.length := hbull.1
  have hslen : (candlestick.bearish_pattern_score df).length = df.length := hbear.1
  have hb2 : (candlestick.bullish_pattern_score df).getD i PF.nan = PF.num b := hb
  have hs2 : (candlestick.bearish_pattern_score df).getD i PF.nan = PF.num s := hs
  have hden : ¬(b + s + 1 = 0) := by positivity
  have hscore : (candlestick.pattern_score df).getD i PF.nan =
      PF.num ((b - s) / (b + s + 1) * 100) := by
    unfold candlestick.pattern_score
    rw [fillna0_getD _ i (by simp [lift2, List.length_zipWith, hblen, hslen]; omega)]
    rw [getD_lift2 _ _ _ i (by omega) (by omega)]
    rw [hb2, hs2]
    have h1 : psub (PF.num b) (PF.num s) = PF.num (b - s) := by
      simp [psub, padd, pneg, sub_eq_add_neg]
    have h2 : padd (padd (PF.num b) (PF.num s)) (PF.num 1) = PF.num (b + s + 1) := by
      simp [padd]
    rw [h1, h2]
    have h3 : pdiv (PF.num (b - s)) (PF.num (b + s + 1)) = PF.num ((b - s) / (b + s + 1)) := by
      simp only [pdiv]
      rw [if_neg hden]
    rw [h3]
    have h4 : pmul (PF.num ((b - s) / (b + s + 1))) (PF.num 100) =
        PF.num ((b - s) / (b + s + 1) * 100) := by simp [pmul]
    rw [h4]
    simp [isNan]
  refine ⟨b, s, hb0, hs0, hb2, hs2, hscore, ?_⟩
  intro hbz hsz
  rw [hscore, hbz, hsz]
  norm_num

/-- C7 witness: the score theorem applied to the one-bar series of the
synthetic §8 bar (no pattern fires there). -/
theorem C7_witness :
    0 < ([dojiBar] : List Bar).length ∧
    (∃ b s : ℚ, 0 ≤ b ∧ 0 ≤ s ∧
      (candlestick.bullish_pattern_score [dojiBar]).getD 0 PF.nan = PF.num b ∧
      (candlestick.bearish_pattern_score [dojiBar]).getD 0 PF.nan = PF.num s ∧
      (candlestick.pattern_score [dojiBar]).getD 0 PF.nan =
        PF.num ((b - s) / (b + s + 1) * 100) ∧
      (b = 0 → s = 0 → (candlestick.pattern_score [dojiBar]).getD 0 PF.nan = PF.num 0)) :=
  ⟨by decide, C7_pattern_score [dojiBar] 0 (by decide)⟩

/-- C3: any input shorter than 252 rows makes the composer return the
insufficient-data result (`none`), in both modes, never a table. -/
theorem C3_insufficient :
    ∀ (df : List Bar) (include_target : Bool),
      df.length < pipeline.min_data_points →
      pipeline.generate_features df include_target = none := by
  intro df b h
  unfold pipeline.generate_features
  rw [if_pos h]

/-- C3 witness: a 10-row series is refused. -/
theorem C3_witness :
    const10.length < pipeline.min_data_points ∧
    pipeline.generate_features const10 true = none :=
  ⟨by decide, C3_insufficient const10 true (by decide)⟩

set_option maxRecDepth 100000 in
attribute [local semireducible] Rat.add Rat.mul Rat.inv Rat.sub Rat.ofScientific in
/-- Evaluation of the pipeline on 252 constant bars, inference mode: every
row contains a nan cell (e.g. `Price_Position` is 0/0 everywhere), so all
rows are dropped. -/
theorem gf_const252_false :
    pipeline.generate_features const252 false =
      some (pipeline.FeatureTable.mk pipeline.FEATURE_COLUMNS []) := by
  decide

set_option maxRecDepth 100000 in
attribute [local semireducible] Rat.add Rat.mul Rat.inv Rat.sub Rat.ofScientific in
/-- Evaluation of the pipeline on 252 constant bars, training mode. -/
theorem gf_const252_true :
    pipeline.generate_features const252 true =
      some (pipeline.FeatureTable.mk (pipeline.FEATURE_COLUMNS ++ ["Target"]) []) := by
  decide

theorem rowsOf_length : ∀ (m i0 : ℕ) (cols : List Series),
    (pipeline.rowsOf i0 m cols).length = m := by
  intro m
  induction m with
  | zero => intro i0 cols; rfl
  | succ m ih => intro i0 cols; simp [pipeline.rowsOf, ih]

theorem headD_eq_getD (c : Series) : c.headD PF.nan = c.getD 0 PF.nan := by
  cases c <;> rfl

theorem tail_getD (c : Series) (j : ℕ) : c.tail.getD j PF.nan = c.getD (j + 1) PF.nan := by
  cases c <;> simp [List.getD]

theorem rowsOf_mem : ∀ (m i0 : ℕ) (cols : List Series) (r : ℕ × List PF),
    r ∈ pipeline.rowsOf i0 m cols →
    ∃ j, j < m ∧ r.1 = i0 + j ∧ r.2 = cols.map fun c => c.getD j PF.nan := by
  intro m
  induction m with
  | zero => intro i0 cols r h; simp [pipeline.rowsOf] at h
  | succ m ih =>
    intro i0 cols r h
    rw [pipeline.rowsOf] at h
    rcases List.mem_cons.1 h with h | h
    · refine ⟨0, Nat.succ_pos m, ?_, ?_⟩
      · rw [h]; simp
      · rw [h]
        exact List.map_congr_left fun c _ => headD_eq_getD c
    · obtain ⟨j, hj, h1, h2⟩ := ih (i0 + 1) (cols.map List.tail) r h
      refine ⟨j + 1, by omega, by omega, ?_⟩
      rw [h2, List.map_map]
      exact List.map_congr_left fun c _ => tail_getD c j

set_option maxRecDepth 10000 in
theorem featureMatrix_names (df : List Bar) :
    (pipeline.featureMatrix df).map Prod.fst =
      ["RSI_14", "RSI_7", "MACD", "MACD_Signal", "MACD_Histogram", "Stochastic_K",
       "Stochastic_D", "Williams_R", "CCI", "ADX",
       "Volume_Ratio_10D", "Volume_Ratio_20D", "OBV", "OBV_Change", "Volume_Trend",
       "VWAP_Distance", "Volume_Spike",
       "Price_vs_SMA20", "Price_vs_SMA50", "Price_vs_SMA200", "Distance_52W_High",
       "Distance_52W_Low", "Price_Position", "Gap_Up_Pct", "Intraday_Range",
       "Return_1D", "Return_5D", "Return_10D", "Momentum_Score", "Acceleration",
       "ATR_14", "Bollinger_Width", "Bollinger_Position", "Historical_Vol_20",
       "Trend_Strength", "Reversal_Signal", "Breakout_Score"] := rfl

set_option maxRecDepth 10000 in
theorem feature_cols_eq (df : List Bar) (b : Bool) :
    pipeline.feature_cols df b =
      pipeline.FEATURE_COLUMNS ++ (if b then ["Target"] else []) := by
  cases b
  · have h1 : pipeline.result_columns df false =
        pipeline.baseColumns ++ (pipeline.featureMatrix df).map Prod.fst := rfl
    unfold pipeline.feature_cols
    rw [h1, featureMatrix_names]
    decide
  · have h1 : pipeline.result_columns df true =
        pipeline.baseColumns ++ ((pipeline.featureMatrix df).map Prod.fst ++ ["Target"]) := by
      unfold pipeline.result_columns pipeline.gen_cols
      simp
    unfold pipeline.feature_cols
    rw [h1, featureMatrix_names]
    decide

/-- Eliminate a successful `generate_features` call: the input was long
enough and the table is the filtered aligned table. -/
theorem gf_some_elim (df : List Bar) (b : Bool) (t : pipeline.FeatureTable)
    (h : pipeline.generate_features df b = some t) :
    ¬ df.length < pipeline.min_data_points ∧
    t = pipeline.FeatureTable.mk (pipeline.feature_cols df b)
      ((pipeline.aligned_rows df b).filter fun r => r.2.all fun x => ¬ x.isNan) := by
  unfold pipeline.generate_features at h
  by_cases hlen : df.length < pipeline.min_data_points
  · rw [if_pos hlen] at h; cases h
  · rw [if_neg hlen] at h
    exact ⟨hlen, (Option.some.inj h).symm⟩

/-- C2 (amended): a returned table has the aligned table's columns, its rows
are a subsequence of the 1:1 aligned rows, and it can be shorter than the
input (rows with undefined cells are removed, not kept). -/
theorem C2_amended :
    ∀ (df : List Bar) (b : Bool) (t : pipeline.FeatureTable),
      pipeline.generate_features df b = some t →
      t.cols = (specAlignedTable df b).cols ∧
      t.rows.Sublist (specAlignedTable df b).rows ∧
      t.rows.length ≤ df.length := by
  intro df b t h
  obtain ⟨hlen, rfl⟩ := gf_some_elim df b t h
  refine ⟨rfl, List.filter_sublist _, ?_⟩
  calc ((pipeline.aligned_rows df b).filter fun r => r.2.all fun x => ¬ x.isNan).length
      ≤ (pipeline.aligned_rows df b).length := List.length_filter_le _ _
    _ = df.length := rowsOf_length _ _ _

set_option maxRecDepth 10000 in
/-- C2 counterexample: the accepted 252-row constant series yields a table
with 0 rows, not one aligned 1:1 with the 252 input rows. -/
theorem C2_counterexample :
    pipeline.generate_features const252 false =
      some (pipeline.FeatureTable.mk pipeline.FEATURE_COLUMNS []) ∧
    (pipeline.FeatureTable.mk pipeline.FEATURE_COLUMNS
      ([] : List (ℕ × List PF))).rows.length ≠ const252.length :=
  ⟨gf_const252_false, by simp [const252]⟩

/-- C2 witness: the amended claim applied to the constant 252-row series. -/
theorem C2_witness :
    pipeline.generate_features const252 false =
      some (pipeline.FeatureTable.mk pipeline.FEATURE_COLUMNS []) ∧
    ((pipeline.FeatureTable.mk pipeline.FEATURE_COLUMNS
        ([] : List (ℕ × List PF))).cols = (specAlignedTable const252 false).cols ∧
      (pipeline.FeatureTable.mk pipeline.FEATURE_COLUMNS
        ([] : List (ℕ × List PF))).rows.Sublist (specAlignedTable const252 false).rows ∧
      (pipeline.FeatureTable.mk pipeline.FEATURE_COLUMNS
        ([] : List (ℕ × List PF))).rows.length ≤ const252.length) :=
  ⟨gf_const252_false, C2_amended const252 false _ gf_const252_false⟩

/-- C4 (amended): a returned table never contains an undefined cell — rows
with one are removed — and all failures (insufficient data, internal errors)
are reported as `none`, indistinguishable from each other, rather than
raised. -/
theorem C4_amended :
    ∀ (df : List Bar) (b : Bool) (t : pipeline.FeatureTable),
      pipeline.generate_features df b = some t →
      ∀ r ∈ t.rows, ∀ x ∈ r.2, x.isNan = false := by
  intro df b t h r hr x hx
  obtain ⟨hlen, rfl⟩ := gf_some_elim df b t h
  have hp := List.of_mem_filter hr
  simp only [List.all_eq_true, decide_eq_true_eq] at hp
  simpa using hp x hx

set_option maxRecDepth 10000 in
/-- C4 counterexample: on the accepted constant 252-row series the composer
neither returns the full per-cell-marked table nor raises: it silently
returns an empty table (the same `none` marker would also cover internal
errors). -/
theorem C4_counterexample :
    pipeline.generate_features const252 false ≠ none ∧
    pipeline.generate_features const252 false ≠ some (specAlignedTable const252 false) := by
  constructor
  · rw [gf_const252_false]; simp
  · rw [gf_const252_false]
    intro h
    have h2 := congrArg (fun t => t.rows.length) (Option.some.inj h)
    simp only [specAlignedTable, pipeline.aligned_rows] at h2
    rw [rowsOf_length] at h2
    simp [const252] at h2

/-- C4 witness: the amended claim applied to the constant 252-row series. -/
theorem C4_witness :
    pipeline.generate_features const252 false =
      some (pipeline.FeatureTable.mk pipeline.FEATURE_COLUMNS []) ∧
    ∀ r ∈ (pipeline.FeatureTable.mk pipeline.FEATURE_COLUMNS
        ([] : List (ℕ × List PF))).rows, ∀ x ∈ r.2, x.isNan = false :=
  ⟨gf_const252_false, C4_amended const252 false _ gf_const252_false⟩

/-- C5: `get_feature_names` is the constant schema, and every returned
table's columns are exactly that schema, in order, with `Target` appended
exactly in training mode. -/
theorem C5_schema :
    pipeline.get_feature_names = pipeline.FEATURE_COLUMNS ∧
    ∀ (df : List Bar) (b : Bool) (t : pipeline.FeatureTable),
      pipeline.generate_features df b = some t →
      t.cols = pipeline.FEATURE_COLUMNS ++ (if b then ["Target"] else []) := by
  refine ⟨rfl, ?_⟩
  intro df b t h
  obtain ⟨hlen, rfl⟩ := gf_some_elim df b t h
  exact feature_cols_eq df b

/-- C5 witness: the schema claim applied to the constant 252-row series. -/
theorem C5_witness :
    pipeline.generate_features const252 false =
      some (pipeline.FeatureTable.mk pipeline.FEATURE_COLUMNS []) ∧
    (pipeline.FeatureTable.mk pipeline.FEATURE_COLUMNS
        ([] : List (ℕ × List PF))).cols =
      pipeline.FEATURE_COLUMNS ++ (if false then ["Target"] else []) :=
  ⟨gf_const252_false, C5_schema.2 const252 false _ gf_const252_false⟩

theorem getD_map (g : PF → PF) (xs : Series) (i : ℕ) (hi : i < xs.length) :
    (xs.map g).getD i PF.nan = g (xs.getD i PF.nan) := by
  rw [List.getD_eq_getElem _ _ (by simpa using hi), List.getD_eq_getElem _ _ hi,
    List.getElem_map]

theorem shiftNeg_getD (k : ℕ) (xs : Series) (i : ℕ) (hi : i < xs.length) :
    (Series.shiftNeg k xs).getD i PF.nan = xs.getD (i + k) PF.nan := by
  simp [Series.shiftNeg, List.getD_eq_getElem?_getD, List.getElem?_map,
    List.getElem?_range, hi]

set_option maxRecDepth 10000 in
theorem lookup_Target (df : List Bar) :
    pipeline.lookup? "Target" (pipeline.gen_cols df true) = some (pipeline.target df) := rfl

theorem selected_getLast (df : List Bar) :
    (pipeline.selected df true).getLast? = some (pipeline.target df) := by
  unfold pipeline.selected
  rw [List.getLast?_map, feature_cols_eq]
  have : (pipeline.FEATURE_COLUMNS ++ (if true then ["Target"] else [])).getLast? =
      some "Target" := by decide
  rw [this]
  simp [lookup_Target]

theorem closes_length (df : List Bar) : (closes df).length = df.length := by
  simp [closes]

/-- C6: the target column appears exactly in training mode (as the last
column), each surviving row's last cell is the target value of its original
row, and that value is the 0/1 label of next-day forward return tested
against the fixed 5% threshold. -/
theorem C6_target :
    (∀ (df : List Bar) (t : pipeline.FeatureTable),
      pipeline.generate_features df false = some t → "Target" ∉ t.cols) ∧
    (∀ (df : List Bar) (t : pipeline.FeatureTable),
      pipeline.generate_features df true = some t →
      t.cols.getLast? = some "Target" ∧
      ∀ r ∈ t.rows, r.2.getLast? = some ((pipeline.target df).getD r.1 PF.nan)) ∧
    (∀ (df : List Bar) (i : ℕ), i < df.length →
      (pipeline.target df).getD i PF.nan =
        PF.ofBool (PF.pgeB (PF.psub (PF.pdiv ((closes df).getD (i + 1) PF.nan)
          ((closes df).getD i PF.nan)) (PF.num 1)) (PF.num 0.05))) := by
  refine ⟨?_, ?_, ?_⟩
  · intro df t h
    obtain ⟨hlen, rfl⟩ := gf_some_elim df false t h
    rw [show (pipeline.FeatureTable.mk (pipeline.feature_cols df false) _).cols =
      pipeline.feature_cols df false from rfl, feature_cols_eq]
    decide
  · intro df t h
    obtain ⟨hlen, rfl⟩ := gf_some_elim df true t h
    constructor
    · rw [show (pipeline.FeatureTable.mk (pipeline.feature_cols df true) _).cols =
        pipeline.feature_cols df true from rfl, feature_cols_eq]
      decide
    · intro r hr
      have hmem := List.mem_of_mem_filter hr
      obtain ⟨j, hj, h1, h2⟩ := rowsOf_mem df.length 0 (pipeline.selected df true) r
        (by simpa [pipeline.aligned_rows] using hmem)
      rw [h2, List.getLast?_map, selected_getLast, h1]
      simp
  · intro df i hi
    unfold pipeline.target
    have hlen1 : (Series.shiftNeg 1 (closes df)).length = df.length := by
      simp [Series.shiftNeg, closes]
    have hlen2 : i < (Series.lift2 (fun a b => PF.psub (PF.pdiv a b) (PF.num 1))
        (Series.shiftNeg 1 (closes df)) (closes df)).length := by
      simp [Series.lift2, List.length_zipWith, hlen1, closes_length]; omega
    rw [getD_map _ _ i hlen2]
    rw [getD_lift2 _ _ _ i (by omega) (by rw [closes_length]; exact hi)]
    rw [shiftNeg_getD 1 (closes df) i (by rw [closes_length]; exact hi)]

set_option maxRecDepth 10000 in
/-- C6 witness: both modes of the claim applied to the constant 252-row
series, and the label formula at row 0. -/
theorem C6_witness :
    pipeline.generate_features const252 false =
      some (pipeline.FeatureTable.mk pipeline.FEATURE_COLUMNS []) ∧
    pipeline.generate_features const252 true =
      some (pipeline.FeatureTable.mk (pipeline.FEATURE_COLUMNS ++ ["Target"]) []) ∧
    "Target" ∉ (pipeline.FeatureTable.mk pipeline.FEATURE_COLUMNS
      ([] : List (ℕ × List PF))).cols ∧
    (pipeline.FeatureTable.mk (pipeline.FEATURE_COLUMNS ++ ["Target"])
      ([] : List (ℕ × List PF))).cols.getLast? = some "Target" ∧
    (0 : ℕ) < const252.length ∧
    (pipeline.target const252).getD 0 PF.nan =
      PF.ofBool (PF.pgeB (PF.psub (PF.pdiv ((closes const252).getD (0 + 1) PF.nan)
        ((closes const252).getD 0 PF.nan)) (PF.num 1)) (PF.num 0.05)) :=
  ⟨gf_const252_false, gf_const252_true,
   C6_target.1 const252 _ gf_const252_false,
   (C6_target.2.1 const252 _ gf_const252_true).1,
   by simp [const252],
   C6_target.2.2 const252 0 (by simp [const252])⟩

open PF Series

/-- One ewm step (adjusted mode) on a finite nonnegative input keeps the
state finite and nonnegative; positive input gives a positive average; zero
input with a zero or empty history keeps the average zero. -/
theorem ewmStep_num (al : ℚ) (h1 : al ≤ 1) (s : Series.EwmState)
    (hw : s.wavg = PF.nan ∨ ∃ q : ℚ, s.wavg = PF.num q ∧ 0 ≤ q)
    (how : 0 ≤ s.oldWt) (c : ℚ) (hc : 0 ≤ c) :
    ∃ q ow, Series.ewmStep true al s (PF.num c) =
        Series.EwmState.mk (PF.num q) ow (s.nobs + 1) ∧
      0 ≤ q ∧ 0 ≤ ow ∧ (0 < c → 0 < q) ∧
      ((s.wavg = PF.nan ∨ s.wavg = PF.num 0) → c = 0 → q = 0) := by
  rcases hw with hw | ⟨w, hw, hw0⟩
  · refine ⟨c, s.oldWt, ?_, hc, how, fun h => h, fun _ hc0 => hc0⟩
    unfold Series.ewmStep
    rw [hw]
    simp [PF.isNan]
  · have hown : (0 : ℚ) ≤ s.oldWt * (1 - al) := by nlinarith
    by_cases heq : s.wavg = PF.num c
    · have hwc : w = c := by rw [hw] at heq; simpa using heq
      refine ⟨w, s.oldWt * (1 - al) + 1, ?_, hw0, by linarith, ?_, ?_⟩
      · unfold Series.ewmStep
        rw [hw]
        simp [PF.isNan, hwc]
      · intro hcpos; rw [hwc]; exact hcpos
      · intro hz hc0
        rcases hz with hz | hz
        · rw [hz] at hw; cases hw
        · rw [hz] at hw; simpa using hw.symm
    · have hga : PF.num w ≠ PF.num c := by rw [hw] at heq; exact heq
      have hd : ¬ (s.oldWt * (1 - al) + 1 = 0) := by positivity
      refine ⟨(s.oldWt * (1 - al) * w + 1 * c) / (s.oldWt * (1 - al) + 1),
        s.oldWt * (1 - al) + 1, ?_, ?_, by linarith, ?_, ?_⟩
      · unfold Series.ewmStep
        rw [hw]
        simp [PF.isNan, hga, PF.pmul, PF.padd, PF.pdiv, hd]
      · have hnum : (0 : ℚ) ≤ s.oldWt * (1 - al) * w + 1 * c := by nlinarith
        positivity
      · intro hcpos
        apply div_pos (by nlinarith) (by linarith)
      · intro hz hc0
        rcases hz with hz | hz
        · rw [hz] at hw; cases hw
        · have hwz : w = 0 := by rw [hz] at hw; simpa using hw.symm
          rw [hwz, hc0]
          ring

/-- The adjusted ewm mean over finite nonnegative inputs: cells before
`min_periods` observations are nan, cells after are finite and
nonnegative. -/
theorem ewmGo_shape : ∀ (xs : Series) (al : ℚ) (minp : ℕ) (s : Series.EwmState),
    al ≤ 1 →
    (∀ x ∈ xs, ∃ q : ℚ, x = PF.num q ∧ 0 ≤ q) →
    (s.wavg = PF.nan ∨ ∃ q : ℚ, s.wavg = PF.num q ∧ 0 ≤ q) →
    0 ≤ s.oldWt →
    ∀ i, i < xs.length →
      (s.nobs + i + 1 < minp → (Series.ewmGo true al minp s xs).getD i PF.nan = PF.nan) ∧
      (minp ≤ s.nobs + i + 1 →
        ∃ q : ℚ, (Series.ewmGo true al minp s xs).getD i PF.nan = PF.num q ∧ 0 ≤ q) := by
  intro xs
  induction xs with
  | nil => intro al minp s _ _ _ _ i hi; simp at hi
  | cons x xs ih =>
    intro al minp s h1 hxs hw how i hi
    obtain ⟨c, hx, hc⟩ := hxs x (List.mem_cons_self x xs)
    obtain ⟨q, ow, hst, hq0, how2, _, _⟩ := ewmStep_num al h1 s hw how c hc
    rw [hx] at *
    match i with
    | 0 =>
      rw [show Series.ewmGo true al minp s (PF.num c :: xs) =
        (if (Series.ewmStep true al s (PF.num c)).nobs ≥ minp
          then (Series.ewmStep true al s (PF.num c)).wavg else PF.nan) ::
          Series.ewmGo true al minp (Series.ewmStep true al s (PF.num c)) xs from rfl]
      rw [hst]
      constructor
      · intro hlt
        simp only [List.getD_cons_zero]
        rw [if_neg (by simp; omega)]
      · intro hge
        refine ⟨q, ?_, hq0⟩
        simp only [List.getD_cons_zero]
        rw [if_pos (by simp; omega)]
    | j + 1 =>
      rw [show Series.ewmGo true al minp s (PF.num c :: xs) =
        (if (Series.ewmStep true al s (PF.num c)).nobs ≥ minp
          then (Series.ewmStep true al s (PF.num c)).wavg else PF.nan) ::
          Series.ewmGo true al minp (Series.ewmStep true al s (PF.num c)) xs from rfl]
      simp only [List.getD_cons_succ]
      rw [hst]
      have hih := ih al minp (Series.ewmStep true al s (PF.num c)) h1
        (fun y hy => hxs y (List.mem_cons_of_mem x hy))
        (by rw [hst]; exact Or.inr ⟨q, rfl, hq0⟩)
        (by rw [hst]; exact how2) j (by simpa using hi)
      rw [hst] at hih
      constructor
      · intro hlt
        have harg : s.nobs + 1 + j + 1 < minp := by omega
        exact hih.1 harg
      · intro hge
        have harg : minp ≤ s.nobs + 1 + j + 1 := by omega
        exact hih.2 harg

/-- Over strictly positive inputs the adjusted ewm mean is strictly positive
wherever it is defined. -/
theorem ewmGo_pos : ∀ (xs : Series) (al : ℚ) (minp : ℕ) (s : Series.EwmState),
    al ≤ 1 →
    (∀ x ∈ xs, ∃ q : ℚ, x = PF.num q ∧ 0 < q) →
    (s.wavg = PF.nan ∨ ∃ q : ℚ, s.wavg = PF.num q ∧ 0 ≤ q) →
    0 ≤ s.oldWt →
    ∀ i, i < xs.length → minp ≤ s.nobs + i + 1 →
      ∃ q : ℚ, (Series.ewmGo true al minp s xs).getD i PF.nan = PF.num q ∧ 0 < q := by
  intro xs
  induction xs with
  | nil => intro al minp s _ _ _ _ i hi; simp at hi
  | cons x xs ih =>
    intro al minp s h1 hxs hw how i hi hge
    obtain ⟨c, hx, hc⟩ := hxs x (List.mem_cons_self x xs)
    obtain ⟨q, ow, hst, hq0, how2, hqpos, _⟩ := ewmStep_num al h1 s hw how c hc.le
    rw [hx] at *
    match i with
    | 0 =>
      rw [show Series.ewmGo true al minp s (PF.num c :: xs) =
        (if (Series.ewmStep true al s (PF.num c)).nobs ≥ minp
          then (Series.ewmStep true al s (PF.num c)).wavg else PF.nan) ::
          Series.ewmGo true al minp (Series.ewmStep true al s (PF.num c)) xs from rfl]
      rw [hst]
      refine ⟨q, ?_, hqpos hc⟩
      simp only [List.getD_cons_zero]
      rw [if_pos (by simp; omega)]
    | j + 1 =>
      rw [show Series.ewmGo true al minp s (PF.num c :: xs) =
        (if (Series.ewmStep true al s (PF.num c)).nobs ≥ minp
          then (Series.ewmStep true al s (PF.num c)).wavg else PF.nan) ::
          Series.ewmGo true al minp (Series.ewmStep true al s (PF.num c)) xs from rfl]
      simp only [List.getD_cons_succ]
      rw [hst]
      have harg : minp ≤ s.nobs + 1 + j + 1 := by omega
      exact ih al minp _ h1 (fun y hy => hxs y (List.mem_cons_of_mem x hy))
        (Or.inr ⟨q, rfl, hq0⟩) how2 j (by simpa using hi) harg

/-- Over all-zero inputs the adjusted ewm mean is zero wherever defined. -/
theorem ewmGo_zero : ∀ (xs : Series) (al : ℚ) (minp : ℕ) (s : Series.EwmState),
    al ≤ 1 →
    (∀ x ∈ xs, x = PF.num 0) →
    (s.wavg = PF.nan ∨ s.wavg = PF.num 0) →
    0 ≤ s.oldWt →
    ∀ i, i < xs.length → minp ≤ s.nobs + i + 1 →
      (Series.ewmGo true al minp s xs).getD i PF.nan = PF.num 0 := by
  intro xs
  induction xs with
  | nil => intro al minp s _ _ _ _ i hi; simp at hi
  | cons x xs ih =>
    intro al minp s h1 hxs hw how i hi hge
    have hx := hxs x (List.mem_cons_self x xs)
    have hw2 : s.wavg = PF.nan ∨ ∃ q : ℚ, s.wavg = PF.num q ∧ 0 ≤ q := by
      rcases hw with hw | hw
      · exact Or.inl hw
      · exact Or.inr ⟨0, hw, le_refl 0⟩
    obtain ⟨q, ow, hst, hq0, how2, _, hzero⟩ := ewmStep_num al h1 s hw2 how 0 (le_refl 0)
    have hqz : q = 0 := hzero hw rfl
    rw [hx] at *
    match i with
    | 0 =>
      rw [show Series.ewmGo true al minp s (PF.num 0 :: xs) =
        (if (Series.ewmStep true al s (PF.num 0)).nobs ≥ minp
          then (Series.ewmStep true al s (PF.num 0)).wavg else PF.nan) ::
          Series.ewmGo true al minp (Series.ewmStep true al s (PF.num 0)) xs from rfl]
      rw [hst]
      simp only [List.getD_cons_zero]
      rw [if_pos (by simp; omega), hqz]
    | j + 1 =>
      rw [show Series.ewmGo true al minp s (PF.num 0 :: xs) =
        (if (Series.ewmStep true al s (PF.num 0)).nobs ≥ minp
          then (Series.ewmStep true al s (PF.num 0)).wavg else PF.nan) ::
          Series.ewmGo true al minp (Series.ewmStep true al s (PF.num 0)) xs from rfl]
      simp only [List.getD_cons_succ]
      rw [hst]
      have harg : minp ≤ s.nobs + 1 + j + 1 := by omega
      exact ih al minp _ h1 (fun y hy => hxs y (List.mem_cons_of_mem x hy))
        (by rw [hqz]; exact Or.inr rfl) how2 j (by simpa using hi) harg

theorem ewmGo_length : ∀ (xs : Series) (a : Bool) (al : ℚ) (minp : ℕ) (s : Series.EwmState),
    (Series.ewmGo a al minp s xs).length = xs.length := by
  intro xs
  induction xs with
  | nil => intro a al minp s; rfl
  | cons x xs ih => intro a al minp s; simp [Series.ewmGo, ih]

theorem shiftN_length (k : ℕ) (xs : Series) : (Series.shiftN k xs).length = xs.length := by
  simp [Series.shiftN]

theorem lift2_length (f : PF → PF → PF) (a b : Series) :
    (Series.lift2 f a b).length = min a.length b.length := by
  simp [Series.lift2, List.length_zipWith]

theorem diff1_length (xs : Series) : (Series.diff1 xs).length = xs.length := by
  simp [Series.diff1, lift2_length, shiftN_length]

theorem shiftN_getD (k : ℕ) (xs : Series) (i : ℕ) (hi : i < xs.length) :
    (Series.shiftN k xs).getD i PF.nan =
      if i < k then PF.nan else xs.getD (i - k) PF.nan := by
  simp [Series.shiftN, List.getD_eq_getElem?_getD, List.getElem?_map, List.getElem?_range, hi]

/-- Any cell of the RSI output formula `100 - 100/(1+rs)` built from a
nan-or-nonnegative average gain and average loss is, when finite, between 0
and 100. -/
theorem rsiVal_bounds : ∀ (a b : PF),
    (a = PF.nan ∨ ∃ p : ℚ, a = PF.num p ∧ 0 ≤ p) →
    (b = PF.nan ∨ ∃ p : ℚ, b = PF.num p ∧ 0 ≤ p) →
    ∀ q : ℚ,
      PF.psub (PF.num 100) (PF.pdiv (PF.num 100) (PF.padd (PF.num 1) (PF.pdiv a b))) =
        PF.num q →
      0 ≤ q ∧ q ≤ 100 := by
  intro a b ha hb q hq
  rcases ha with rfl | ⟨g, rfl, hg⟩
  · simp [PF.pdiv, PF.padd, PF.psub, PF.pneg] at hq
  · rcases hb with rfl | ⟨l, rfl, hl⟩
    · simp [PF.pdiv, PF.padd, PF.psub, PF.pneg] at hq
    · rcases eq_or_lt_of_le hl with hl0 | hlpos
      · rcases eq_or_lt_of_le hg with hg0 | hgpos
        · rw [← hl0, ← hg0] at hq
          simp [PF.pdiv, PF.padd, PF.psub, PF.pneg] at hq
        · rw [← hl0] at hq
          rw [show PF.pdiv (PF.num g) (PF.num 0) = PF.pinf by
            simp [PF.pdiv, hgpos]] at hq
          simp [PF.padd, PF.pdiv, PF.psub, PF.pneg] at hq
          constructor <;> rw [← hq] <;> norm_num
      · have hl0 : ¬ (l = 0) := by linarith
        rw [show PF.pdiv (PF.num g) (PF.num l) = PF.num (g / l) by
          simp [PF.pdiv, hl0]] at hq
        rw [show PF.padd (PF.num 1) (PF.num (g / l)) = PF.num (1 + g / l) by
          simp [PF.padd]] at hq
        have hr : 0 ≤ g / l := div_nonneg hg hlpos.le
        have hden : ¬ (1 + g / l = 0) := by linarith
        rw [show PF.pdiv (PF.num 100) (PF.num (1 + g / l)) =
          PF.num (100 / (1 + g / l)) by simp [PF.pdiv, hden]] at hq
        rw [show PF.psub (PF.num 100) (PF.num (100 / (1 + g / l))) =
          PF.num (100 - 100 / (1 + g / l)) by
            simp [PF.psub, PF.padd, PF.pneg]; ring] at hq
        have hqe : q = 100 - 100 / (1 + g / l) := by
          have := hq.symm
          simpa using this
        have h1 : 0 < 100 / (1 + g / l) := by positivity
        have h2 : 100 / (1 + g / l) ≤ 100 :=
          div_le_self (by norm_num) (by linarith)
        constructor <;> rw [hqe] <;> linarith

/-- With positive average gain and zero average loss the RSI formula
saturates at exactly 100 (the division-by-zero guard path). -/
theorem rsiVal_100 : ∀ g : ℚ, 0 < g →
    PF.psub (PF.num 100)
      (PF.pdiv (PF.num 100) (PF.padd (PF.num 1) (PF.pdiv (PF.num g) (PF.num 0)))) =
    PF.num 100 := by
  intro g hg
  rw [show PF.pdiv (PF.num g) (PF.num 0) = PF.pinf by simp [PF.pdiv, hg]]
  simp [PF.padd, PF.pdiv, PF.psub, PF.pneg]

theorem lift2_mem : ∀ (f : PF → PF → PF) (as bs : Series) (x : PF),
    x ∈ Series.lift2 f as bs → ∃ a b, a ∈ as ∧ b ∈ bs ∧ x = f a b := by
  intro f as
  induction as with
  | nil => intro bs x h; simp [Series.lift2] at h
  | cons a as ih =>
    intro bs x h
    match bs with
    | [] => simp [Series.lift2] at h
    | b :: bs =>
      rcases List.mem_cons.1 h with h | h
      · exact ⟨a, b, List.mem_cons_self _ _, List.mem_cons_self _ _, h⟩
      · obtain ⟨a2, b2, ha2, hb2, hx⟩ := ih bs x h
        exact ⟨a2, b2, List.mem_cons_of_mem _ ha2, List.mem_cons_of_mem _ hb2, hx⟩

theorem shiftN_mem : ∀ (k : ℕ) (xs : Series) (x : PF),
    x ∈ Series.shiftN k xs → x = PF.nan ∨ x ∈ xs := by
  intro k xs x h
  simp only [Series.shiftN, List.mem_map, List.mem_range] at h
  obtain ⟨i, _, hx⟩ := h
  by_cases hik : i < k
  · rw [if_pos hik] at hx; exact Or.inl hx.symm
  · rw [if_neg hik] at hx
    by_cases hlen : i - k < xs.length
    · right
      rw [← hx, List.getD_eq_getElem _ _ hlen]
      exact List.getElem_mem _
    · left
      rw [← hx]
      exact (List.getD_eq_default _ _ (by omega)).symm ▸ rfl

theorem delta_cells (qs : List ℚ) :
    ∀ x ∈ Series.diff1 (qs.map PF.num), x = PF.nan ∨ ∃ d : ℚ, x = PF.num d := by
  intro x hx
  obtain ⟨a, b, ha, hb, hx⟩ := lift2_mem _ _ _ x hx
  obtain ⟨qa, _, ha⟩ := List.mem_map.1 ha
  rcases shiftN_mem 1 _ b hb with rfl | hb
  · rw [hx, ← ha]
    simp [PF.psub, PF.padd, PF.pneg]
  · obtain ⟨qb, _, hb⟩ := List.mem_map.1 hb
    rw [hx, ← ha, ← hb]
    exact Or.inr ⟨qa - qb, by simp [PF.psub, PF.padd, PF.pneg]; ring⟩

theorem gain_cells (qs : List ℚ) :
    ∀ x ∈ (Series.diff1 (qs.map PF.num)).map
      (fun d => if PF.pgtB d (PF.num 0) then d else PF.num 0),
      ∃ q : ℚ, x = PF.num q ∧ 0 ≤ q := by
  intro x hx
  obtain ⟨d, hd, hx⟩ := List.mem_map.1 hx
  rcases delta_cells qs d hd with rfl | ⟨v, rfl⟩
  · exact ⟨0, by rw [← hx]; simp [PF.pgtB, PF.pltB], le_refl 0⟩
  · by_cases hv : 0 < v
    · refine ⟨v, ?_, hv.le⟩
      rw [← hx, if_pos (by simpa [PF.pgtB, PF.pltB] using hv)]
    · refine ⟨0, ?_, le_refl 0⟩
      rw [← hx, if_neg (by simpa [PF.pgtB, PF.pltB] using hv)]

theorem loss_cells (qs : List ℚ) :
    ∀ x ∈ (Series.diff1 (qs.map PF.num)).map
      (fun d => if PF.pltB d (PF.num 0) then PF.pneg d else PF.num 0),
      ∃ q : ℚ, x = PF.num q ∧ 0 ≤ q := by
  intro x hx
  obtain ⟨d, hd, hx⟩ := List.mem_map.1 hx
  rcases delta_cells qs d hd with rfl | ⟨v, rfl⟩
  · exact ⟨0, by rw [← hx]; simp [PF.pltB], le_refl 0⟩
  · by_cases hv : v < 0
    · refine ⟨-v, ?_, by linarith⟩
      rw [← hx, if_pos (by simpa [PF.pltB] using hv)]
      simp [PF.pneg]
    · refine ⟨0, ?_, le_refl 0⟩
      rw [← hx, if_neg (by simpa [PF.pltB] using hv)]

theorem calculate_rsi_getD (prices : Series) (period : ℕ) (i : ℕ) (hi : i < prices.length) :
    (technical.calculate_rsi prices period).getD i PF.nan =
      PF.psub (PF.num 100) (PF.pdiv (PF.num 100) (PF.padd (PF.num 1)
        (PF.pdiv
          ((Series.ewmMean true (1 / (period : ℚ)) period
            ((Series.diff1 prices).map fun d =>
              if PF.pgtB d (PF.num 0) then d else PF.num 0)).getD i PF.nan)
          ((Series.ewmMean true (1 / (period : ℚ)) period
            ((Series.diff1 prices).map fun d =>
              if PF.pltB d (PF.num 0) then PF.pneg d else PF.num 0)).getD i PF.nan)))) := by
  unfold technical.calculate_rsi
  have hg : (Series.ewmMean true (1 / (period : ℚ)) period
      ((Series.diff1 prices).map fun d =>
        if PF.pgtB d (PF.num 0) then d else PF.num 0)).length = prices.length := by
    unfold Series.ewmMean
    rw [ewmGo_length]
    simp [diff1_length]
  have hl : (Series.ewmMean true (1 / (period : ℚ)) period
      ((Series.diff1 prices).map fun d =>
        if PF.pltB d (PF.num 0) then PF.pneg d else PF.num 0)).length = prices.length := by
    unfold Series.ewmMean
    rw [ewmGo_length]
    simp [diff1_length]
  rw [getD_map _ _ i (by rw [lift2_length, hg, hl]; omega)]
  rw [getD_lift2 _ _ _ i (by rw [hg]; exact hi) (by rw [hl]; exact hi)]

theorem one_div_nat_le_one (n : ℕ) : (1 : ℚ) / (n : ℚ) ≤ 1 := by
  match n with
  | 0 => norm_num
  | m + 1 =>
    rw [div_le_one (by positivity)]
    exact_mod_cast Nat.succ_le_succ (Nat.zero_le m)

theorem calculate_rsi_length (prices : Series) (period : ℕ) :
    (technical.calculate_rsi prices period).length = prices.length := by
  unfold technical.calculate_rsi
  rw [List.length_map, lift2_length]
  unfold Series.ewmMean
  rw [ewmGo_length, ewmGo_length]
  simp [diff1_length]

theorem calculate_rsi_bounds : ∀ (qs : List ℚ) (period i : ℕ) (q : ℚ),
    (technical.calculate_rsi (qs.map PF.num) period).getD i PF.nan = PF.num q →
    0 ≤ q ∧ q ≤ 100 := by
  intro qs period i q hq
  by_cases hi : i < (qs.map PF.num : Series).length
  · rw [calculate_rsi_getD _ _ i hi] at hq
    have hglen : ((Series.diff1 (qs.map PF.num)).map fun d =>
        if PF.pgtB d (PF.num 0) then d else PF.num 0).length = (qs.map PF.num : Series).length := by
      simp [diff1_length]
    have hllen : ((Series.diff1 (qs.map PF.num)).map fun d =>
        if PF.pltB d (PF.num 0) then PF.pneg d else PF.num 0).length = (qs.map PF.num : Series).length := by
      simp [diff1_length]
    have hgcell := ewmGo_shape _ (1 / (period : ℚ)) period (Series.EwmState.mk PF.nan 1 0)
      (one_div_nat_le_one period) (gain_cells qs) (Or.inl rfl) (by norm_num) i
      (by rw [hglen]; exact hi)
    have hlcell := ewmGo_shape _ (1 / (period : ℚ)) period (Series.EwmState.mk PF.nan 1 0)
      (one_div_nat_le_one period) (loss_cells qs) (Or.inl rfl) (by norm_num) i
      (by rw [hllen]; exact hi)
    refine rsiVal_bounds _ _ ?_ ?_ q hq
    · rcases le_or_lt period (0 + i + 1) with h | h
      · exact Or.inr (hgcell.2 h)
      · exact Or.inl (hgcell.1 h)
    · rcases le_or_lt period (0 + i + 1) with h | h
      · exact Or.inr (hlcell.2 h)
      · exact Or.inl (hlcell.1 h)
  · rw [List.getD_eq_default _ _ (by rw [calculate_rsi_length]; omega)] at hq
    cases hq

theorem rollingAgg_getD (w : ℕ) (agg : List PF → PF) (xs : Series) (i : ℕ)
    (hi : i < xs.length) :
    (Series.rollingAgg w agg xs).getD i PF.nan =
      if i + 1 < w then PF.nan
      else if ((xs.take (i + 1)).drop (i + 1 - w)).any (·.isNan) then PF.nan
      else agg ((xs.take (i + 1)).drop (i + 1 - w)) := by
  simp [Series.rollingAgg, List.getD_eq_getElem?_getD, List.getElem?_map,
    List.getElem?_range, hi]

theorem rollingAgg_length (w : ℕ) (agg : List PF → PF) (xs : Series) :
    (Series.rollingAgg w agg xs).length = xs.length := by
  simp [Series.rollingAgg]

theorem map_num_decomp : ∀ (l : List PF), (∀ x ∈ l, ∃ q : ℚ, x = PF.num q) →
    ∃ qs : List ℚ, l = qs.map PF.num := by
  intro l
  induction l with
  | nil => intro _; exact ⟨[], rfl⟩
  | cons x l ih =>
    intro h
    obtain ⟨q, hq⟩ := h x (List.mem_cons_self x l)
    obtain ⟨qs, hqs⟩ := ih fun y hy => h y (List.mem_cons_of_mem x hy)
    exact ⟨q :: qs, by rw [hq, hqs]; rfl⟩

theorem foldl_padd_map_num (qs : List ℚ) : ∀ a : ℚ,
    List.foldl PF.padd (PF.num a) (qs.map PF.num) = PF.num (a + qs.sum) := by
  induction qs with
  | nil => intro a; simp
  | cons q qs ih =>
    intro a
    simp only [List.map_cons, List.foldl_cons, PF.padd]
    rw [ih]
    congr 1
    simp
    ring

theorem aggMean_map_num (qs : List ℚ) (h : qs ≠ []) :
    Series.aggMean (qs.map PF.num) = PF.num (qs.sum / (qs.length : ℚ)) := by
  unfold Series.aggMean Series.aggSum
  rw [foldl_padd_map_num qs 0, zero_add]
  have hlen : ¬ ((qs.map PF.num : List PF).length : ℚ) = 0 := by
    simp only [List.length_map, Nat.cast_eq_zero]
    exact fun hh => h (List.eq_nil_of_length_eq_zero hh)
  simp only [PF.pdiv]
  rw [if_neg hlen]
  simp

theorem rollingMean_shape : ∀ (w : ℕ) (xs : Series),
    (∀ x ∈ xs, ∃ q : ℚ, x = PF.num q ∧ 0 ≤ q) →
    ∀ i, i < xs.length →
      (Series.rollingAgg w Series.aggMean xs).getD i PF.nan = PF.nan ∨
      ∃ p : ℚ, (Series.rollingAgg w Series.aggMean xs).getD i PF.nan = PF.num p ∧ 0 ≤ p := by
  intro w xs hxs i hi
  rw [rollingAgg_getD w _ xs i hi]
  by_cases h1 : i + 1 < w
  · rw [if_pos h1]; exact Or.inl rfl
  · rw [if_neg h1]
    by_cases h2 : ((xs.take (i + 1)).drop (i + 1 - w)).any (·.isNan)
    · rw [if_pos h2]; exact Or.inl rfl
    · rw [if_neg h2]
      have hwin : ∀ x ∈ (xs.take (i + 1)).drop (i + 1 - w), ∃ q : ℚ, x = PF.num q ∧ 0 ≤ q :=
        fun x hx => hxs x (List.mem_of_mem_take (List.mem_of_mem_drop hx))
      obtain ⟨qs, hqs⟩ := map_num_decomp _ fun x hx => ⟨(hwin x hx).choose, (hwin x hx).choose_spec.1⟩
      match hqsnil : qs with
      | [] =>
        rw [hqs]
        left
        unfold Series.aggMean Series.aggSum
        simp [PF.pdiv]
      | q :: qs2 =>
        rw [hqs, aggMean_map_num _ (by simp)]
        right
        refine ⟨_, rfl, ?_⟩
        apply div_nonneg _ (by positivity)
        apply List.sum_nonneg
        intro y hy
        have hmem : PF.num y ∈ (xs.take (i + 1)).drop (i + 1 - w) := by
          rw [hqs]; exact List.mem_map_of_mem _ hy
        obtain ⟨p, hp, hp0⟩ := hwin _ hmem
        have : y = p := by simpa using hp
        rw [this]; exact hp0

theorem lossTI_cells (qs : List ℚ) :
    ∀ x ∈ ((Series.diff1 (qs.map PF.num)).map
        (fun d => if PF.pltB d (PF.num 0) then d else PF.num 0)).map PF.pneg,
      ∃ q : ℚ, x = PF.num q ∧ 0 ≤ q := by
  intro x hx
  obtain ⟨y, hy, hx⟩ := List.mem_map.1 hx
  obtain ⟨d, hd, hy⟩ := List.mem_map.1 hy
  rcases delta_cells qs d hd with rfl | ⟨v, rfl⟩
  · refine ⟨0, ?_, le_refl 0⟩
    rw [← hx, ← hy]
    simp [PF.pltB, PF.pneg]
  · by_cases hv : v < 0
    · refine ⟨-v, ?_, by linarith⟩
      rw [← hx, ← hy, if_pos (by simpa [PF.pltB] using hv)]
      simp [PF.pneg]
    · refine ⟨0, ?_, le_refl 0⟩
      rw [← hx, ← hy, if_neg (by simpa [PF.pltB] using hv)]
      simp [PF.pneg]

theorem rsiTI_getD (close : Series) (period : ℕ) (i : ℕ) (hi : i < close.length) :
    (TechnicalIndicators.rsi close period).getD i PF.nan =
      PF.psub (PF.num 100) (PF.pdiv (PF.num 100) (PF.padd (PF.num 1)
        (PF.pdiv
          ((Series.rollingAgg period Series.aggMean
            ((Series.diff1 close).map fun d =>
              if PF.pgtB d (PF.num 0) then d else PF.num 0)).getD i PF.nan)
          ((Series.rollingAgg period Series.aggMean
            (((Series.diff1 close).map fun d =>
              if PF.pltB d (PF.num 0) then d else PF.num 0).map PF.pneg)).getD i PF.nan)))) := by
  unfold TechnicalIndicators.rsi
  have hg : (Series.rollingAgg period Series.aggMean
      ((Series.diff1 close).map fun d =>
        if PF.pgtB d (PF.num 0) then d else PF.num 0)).length = close.length := by
    rw [rollingAgg_length]
    simp [diff1_length]
  have hl : (Series.rollingAgg period Series.aggMean
      (((Series.diff1 close).map fun d =>
        if PF.pltB d (PF.num 0) then d else PF.num 0).map PF.pneg)).length = close.length := by
    rw [rollingAgg_length]
    simp [diff1_length]
  rw [getD_map _ _ i (by rw [lift2_length, hg, hl]; omega)]
  rw [getD_lift2 _ _ _ i (by rw [hg]; exact hi) (by rw [hl]; exact hi)]

theorem rsiTI_length (close : Series) (period : ℕ) :
    (TechnicalIndicators.rsi close period).length = close.length := by
  unfold TechnicalIndicators.rsi
  rw [List.length_map, lift2_length, rollingAgg_length, rollingAgg_length]
  simp [diff1_length]

theorem rsiTI_bounds : ∀ (qs : List ℚ) (period i : ℕ) (q : ℚ),
    (TechnicalIndicators.rsi (qs.map PF.num) period).getD i PF.nan = PF.num q →
    0 ≤ q ∧ q ≤ 100 := by
  intro qs period i q hq
  by_cases hi : i < (qs.map PF.num : Series).length
  · rw [rsiTI_getD _ _ i hi] at hq
    have hgcell := rollingMean_shape period _ (gain_cells qs) i
      (by simp [diff1_length]; simpa using hi)
    have hlcell := rollingMean_shape period _ (lossTI_cells qs) i
      (by simp [diff1_length]; simpa using hi)
    exact rsiVal_bounds _ _ hgcell hlcell q hq
  · rw [List.getD_eq_default _ _ (by rw [rsiTI_length]; omega)] at hq
    cases hq

theorem map_num_getD (qs : List ℚ) (i : ℕ) (hi : i < qs.length) :
    (qs.map PF.num).getD i PF.nan = PF.num (qs.getD i 0) := by
  rw [List.getD_eq_getElem _ _ (by simpa using hi), List.getD_eq_getElem _ _ hi,
    List.getElem_map]

theorem diff1_map_num_getD (qs : List ℚ) (i : ℕ) (hi : i < qs.length) :
    (Series.diff1 (qs.map PF.num)).getD i PF.nan =
      if i = 0 then PF.nan else PF.num (qs.getD i 0 - qs.getD (i - 1) 0) := by
  unfold Series.diff1
  rw [getD_lift2 _ _ _ i (by simpa using hi) (by rw [shiftN_length]; simpa using hi)]
  rw [shiftN_getD 1 _ i (by simpa using hi)]
  rw [map_num_getD qs i hi]
  by_cases h0 : i = 0
  · rw [if_pos (by omega), if_pos h0]
    simp [PF.psub, PF.padd, PF.pneg]
  · rw [if_neg (by omega), if_neg h0]
    rw [map_num_getD qs (i - 1) (by omega)]
    simp [PF.psub, PF.padd, PF.pneg]
    ring

/-- Gain cells of a strictly increasing series: zero at row 0, strictly
positive afterwards. -/
theorem gain_getD_mono (qs : List ℚ)
    (hmono : ∀ j, j + 1 < qs.length → qs.getD j 0 < qs.getD (j + 1) 0)
    (i : ℕ) (hi : i < qs.length) :
    ((Series.diff1 (qs.map PF.num)).map fun d =>
      if PF.pgtB d (PF.num 0) then d else PF.num 0).getD i PF.nan =
    (if i = 0 then PF.num 0 else PF.num (qs.getD i 0 - qs.getD (i - 1) 0)) ∧
    (i ≠ 0 → 0 < qs.getD i 0 - qs.getD (i - 1) 0) := by
  have hd := diff1_map_num_getD qs i hi
  have hgd := getD_map (fun d => if PF.pgtB d (PF.num 0) then d else PF.num 0)
    (Series.diff1 (qs.map PF.num)) i (by rw [diff1_length]; simpa using hi)
  by_cases h0 : i = 0
  · rw [if_pos h0] at hd
    rw [hgd, hd]
    refine ⟨?_, fun h => absurd h0 h⟩
    rw [if_pos h0]
    simp [PF.pgtB, PF.pltB]
  · rw [if_neg h0] at hd
    have hpos : 0 < qs.getD i 0 - qs.getD (i - 1) 0 := by
      have := hmono (i - 1) (by omega)
      have hieq : i - 1 + 1 = i := by omega
      rw [hieq] at this
      linarith
    rw [hgd, hd]
    refine ⟨?_, fun _ => hpos⟩
    rw [if_neg h0]
    have hcond : PF.pgtB (PF.num (qs.getD i 0 - qs.getD (i - 1) 0)) (PF.num 0) = true := by
      simp only [PF.pgtB, PF.pltB, decide_eq_true_eq]
      linarith
    simp only [hcond, if_true]

/-- Loss cells of a strictly increasing series are all zero (technical.py
variant). -/
theorem lossTech_mono_zero (qs : List ℚ)
    (hmono : ∀ j, j + 1 < qs.length → qs.getD j 0 < qs.getD (j + 1) 0) :
    ∀ x ∈ (Series.diff1 (qs.map PF.num)).map
      (fun d => if PF.pltB d (PF.num 0) then PF.pneg d else PF.num 0), x = PF.num 0 := by
  intro x hx
  obtain ⟨i, hilen, hix⟩ := List.mem_iff_getElem.1 hx
  have hlen : i < qs.length := by simpa [diff1_length] using hilen
  rw [← List.getD_eq_getElem _ _ hilen] at hix
  rw [getD_map _ _ i (by rw [diff1_length]; simpa using hlen)] at hix
  rw [diff1_map_num_getD qs i hlen] at hix
  by_cases h0 : i = 0
  · rw [if_pos h0] at hix
    rw [← hix]
    simp [PF.pltB]
  · rw [if_neg h0] at hix
    have hpos : 0 < qs.getD i 0 - qs.getD (i - 1) 0 := by
      have := hmono (i - 1) (by omega)
      have hieq : i - 1 + 1 = i := by omega
      rw [hieq] at this
      linarith
    have hcond : ¬ (PF.pltB (PF.num (qs.getD i 0 - qs.getD (i - 1) 0)) (PF.num 0) = true) := by
      simp only [PF.pltB, decide_eq_true_eq]
      linarith
    rw [← hix, if_neg hcond]

/-- Loss cells of a strictly increasing series are all zero
(technical_indicators.py variant, negation applied after the mask). -/
theorem lossTI_mono_zero (qs : List ℚ)
    (hmono : ∀ j, j + 1 < qs.length → qs.getD j 0 < qs.getD (j + 1) 0) :
    ∀ x ∈ ((Series.diff1 (qs.map PF.num)).map
      (fun d => if PF.pltB d (PF.num 0) then d else PF.num 0)).map PF.pneg,
      x = PF.num 0 := by
  intro x hx
  obtain ⟨y, hy, hx⟩ := List.mem_map.1 hx
  obtain ⟨i, hilen, hiy⟩ := List.mem_iff_getElem.1 hy
  have hlen : i < qs.length := by simpa [diff1_length] using hilen
  rw [← List.getD_eq_getElem _ _ hilen] at hiy
  rw [getD_map _ _ i (by rw [diff1_length]; simpa using hlen)] at hiy
  rw [diff1_map_num_getD qs i hlen] at hiy
  by_cases h0 : i = 0
  · rw [if_pos h0] at hiy
    rw [← hx, ← hiy]
    simp [PF.pltB, PF.pneg]
  · rw [if_neg h0] at hiy
    have hpos : 0 < qs.getD i 0 - qs.getD (i - 1) 0 := by
      have := hmono (i - 1) (by omega)
      have hieq : i - 1 + 1 = i := by omega
      rw [hieq] at this
      linarith
    have hcond : ¬ (PF.pltB (PF.num (qs.getD i 0 - qs.getD (i - 1) 0)) (PF.num 0) = true) := by
      simp only [PF.pltB, decide_eq_true_eq]
      linarith
    rw [← hx, ← hiy, if_neg hcond]
    simp [PF.pneg]

/-- On a strictly increasing series, `technical.calculate_rsi` is exactly
100 at row `period` (the first row is reachable since the series has at
least `period+1` rows). -/
theorem calculate_rsi_mono_100 (qs : List ℚ) (period : ℕ) (hp : 1 ≤ period)
    (hlen : period + 1 ≤ qs.length)
    (hmono : ∀ j, j + 1 < qs.length → qs.getD j 0 < qs.getD (j + 1) 0) :
    (technical.calculate_rsi (qs.map PF.num) period).getD period PF.nan = PF.num 100 := by
  have hpl : period < (qs.map PF.num : Series).length := by simp; omega
  rw [calculate_rsi_getD _ _ period hpl]
  have hGlen : ((Series.diff1 (qs.map PF.num)).map fun d =>
      if PF.pgtB d (PF.num 0) then d else PF.num 0).length = qs.length := by
    simp [diff1_length]
  have hLlen : ((Series.diff1 (qs.map PF.num)).map fun d =>
      if PF.pltB d (PF.num 0) then PF.pneg d else PF.num 0).length = qs.length := by
    simp [diff1_length]
  -- average loss is identically zero where defined
  have hloss : (Series.ewmMean true (1 / (period : ℚ)) period
      ((Series.diff1 (qs.map PF.num)).map fun d =>
        if PF.pltB d (PF.num 0) then PF.pneg d else PF.num 0)).getD period PF.nan =
      PF.num 0 := by
    exact ewmGo_zero _ (1 / (period : ℚ)) period (Series.EwmState.mk PF.nan 1 0)
      (one_div_nat_le_one period) (lossTech_mono_zero qs hmono) (Or.inl rfl) (by norm_num)
      period (by rw [hLlen]; omega) (by omega)
  -- average gain is strictly positive at row `period`
  obtain ⟨g0, grest, hcons⟩ := List.exists_cons_of_ne_nil
    (show ((Series.diff1 (qs.map PF.num)).map fun d =>
      if PF.pgtB d (PF.num 0) then d else PF.num 0) ≠ [] by
        intro hnil
        rw [hnil] at hGlen
        simp at hGlen
        omega)
  have hg0 : g0 = PF.num 0 := by
    have := (gain_getD_mono qs hmono 0 (by omega)).1
    rw [hcons] at this
    simpa using this
  have hrest : ∀ x ∈ grest, ∃ q : ℚ, x = PF.num q ∧ 0 < q := by
    intro x hx
    obtain ⟨j, hjlen, hjx⟩ := List.mem_iff_getElem.1 hx
    have hjq : j + 1 < qs.length := by
      have : grest.length = qs.length - 1 := by
        have := hGlen
        rw [hcons] at this
        simp at this
        omega
      omega
    have hval := gain_getD_mono qs hmono (j + 1) (by omega)
    rw [hcons] at hval
    rw [show (g0 :: grest).getD (j + 1) PF.nan = grest.getD j PF.nan from rfl] at hval
    rw [List.getD_eq_getElem _ _ hjlen, hjx] at hval
    refine ⟨qs.getD (j + 1) 0 - qs.getD j 0, ?_, ?_⟩
    · rw [hval.1, if_neg (by omega)]
      simp
    · have := hval.2 (by omega)
      simpa using this
  obtain ⟨pm, hpm⟩ : ∃ pm, period = pm + 1 := ⟨period - 1, by omega⟩
  obtain ⟨q0, ow0, hst, hq00, how0, _, hz0⟩ := ewmStep_num (1 / (period : ℚ))
    (one_div_nat_le_one period) (Series.EwmState.mk PF.nan 1 0) (Or.inl rfl)
    (by norm_num) 0 (le_refl 0)
  have hq0z : q0 = 0 := hz0 (Or.inl rfl) rfl
  have hgain : ∃ g : ℚ, (Series.ewmMean true (1 / (period : ℚ)) period
      ((Series.diff1 (qs.map PF.num)).map fun d =>
        if PF.pgtB d (PF.num 0) then d else PF.num 0)).getD period PF.nan = PF.num g ∧
      0 < g := by
    unfold Series.ewmMean
    rw [hcons, hg0]
    rw [show Series.ewmGo true (1 / (period : ℚ)) period (Series.EwmState.mk PF.nan 1 0)
        (PF.num 0 :: grest) =
      (if (Series.ewmStep true (1 / (period : ℚ)) (Series.EwmState.mk PF.nan 1 0)
          (PF.num 0)).nobs ≥ period
        then (Series.ewmStep true (1 / (period : ℚ)) (Series.EwmState.mk PF.nan 1 0)
          (PF.num 0)).wavg else PF.nan) ::
        Series.ewmGo true (1 / (period : ℚ)) period
          (Series.ewmStep true (1 / (period : ℚ)) (Series.EwmState.mk PF.nan 1 0)
            (PF.num 0)) grest from rfl]
    have hcs : ∀ (x : PF) (l : List PF) (dflt : PF),
        (x :: l).getD period dflt = l.getD (period - 1) dflt := by
      intro x l dflt
      rw [hpm]
      simp [List.getD_cons_succ]
    rw [hcs]
    rw [hst, hq0z]
    have hrl : period - 1 < grest.length := by
      have : grest.length = qs.length - 1 := by
        have := hGlen
        rw [hcons] at this
        simp at this
        omega
      omega
    exact ewmGo_pos grest (1 / (period : ℚ)) period _ (one_div_nat_le_one period) hrest
      (Or.inr ⟨0, rfl, le_refl 0⟩) how0 (period - 1) hrl (by simp; omega)
  obtain ⟨g, hgeq, hgpos⟩ := hgain
  rw [hgeq, hloss]
  exact rsiVal_100 g hgpos

theorem window_length {xs : Series} {w i : ℕ} (hw : w ≤ i + 1) (hi : i < xs.length) :
    ((xs.take (i + 1)).drop (i + 1 - w)).length = w := by
  simp only [List.length_drop, List.length_take]
  omega

theorem window_cells {xs : Series} {w i : ℕ} (hw : w ≤ i + 1) (hi : i < xs.length) :
    ∀ x ∈ (xs.take (i + 1)).drop (i + 1 - w),
      ∃ j, i + 1 - w ≤ j ∧ j ≤ i ∧ j < xs.length ∧ x = xs.getD j PF.nan := by
  intro x hx
  obtain ⟨jd, hjd, hjx⟩ := List.mem_iff_getElem.1 hx
  have hwl : ((xs.take (i + 1)).drop (i + 1 - w)).length = w := window_length hw hi
  refine ⟨(i + 1 - w) + jd, by omega, by omega, by omega, ?_⟩
  rw [List.getElem_drop] at hjx
  rw [List.getElem_take] at hjx
  rw [List.getD_eq_getElem _ _ (by omega)]
  exact hjx.symm

/-- On a strictly increasing series, `TechnicalIndicators.rsi` is exactly
100 at row `period`. -/
theorem rsiTI_mono_100 (qs : List ℚ) (period : ℕ) (hp : 1 ≤ period)
    (hlen : period + 1 ≤ qs.length)
    (hmono : ∀ j, j + 1 < qs.length → qs.getD j 0 < qs.getD (j + 1) 0) :
    (TechnicalIndicators.rsi (qs.map PF.num) period).getD period PF.nan = PF.num 100 := by
  have hpl : period < (qs.map PF.num : Series).length := by simp; omega
  rw [rsiTI_getD _ _ period hpl]
  have hGlen : ((Series.diff1 (qs.map PF.num)).map fun d =>
      if PF.pgtB d (PF.num 0) then d else PF.num 0).length = qs.length := by
    simp [diff1_length]
  have hLlen : (((Series.diff1 (qs.map PF.num)).map fun d =>
      if PF.pltB d (PF.num 0) then d else PF.num 0).map PF.pneg).length = qs.length := by
    simp [diff1_length]
  have hw : period ≤ period + 1 := by omega
  -- the gain window at row `period` consists of rows 1..period, all positive
  have hgwin : ∀ x ∈ ((((Series.diff1 (qs.map PF.num)).map fun d =>
      if PF.pgtB d (PF.num 0) then d else PF.num 0).take (period + 1)).drop (period + 1 - period)),
      ∃ q : ℚ, x = PF.num q ∧ 0 < q := by
    intro x hx
    obtain ⟨j, hj1, hj2, hj3, hjx⟩ := window_cells hw (by rw [hGlen]; omega) x hx
    have hj0 : j ≠ 0 := by omega
    have hval := gain_getD_mono qs hmono j (by rw [hGlen] at hj3; exact hj3)
    refine ⟨qs.getD j 0 - qs.getD (j - 1) 0, ?_, hval.2 hj0⟩
    rw [hjx, hval.1, if_neg hj0]
  have hgain : ∃ g : ℚ, (Series.rollingAgg period Series.aggMean
      ((Series.diff1 (qs.map PF.num)).map fun d =>
        if PF.pgtB d (PF.num 0) then d else PF.num 0)).getD period PF.nan = PF.num g ∧
      0 < g := by
    rw [rollingAgg_getD _ _ _ period (by rw [hGlen]; omega)]
    rw [if_neg (by omega)]
    have hnonan : ¬ (((((Series.diff1 (qs.map PF.num)).map fun d =>
        if PF.pgtB d (PF.num 0) then d else PF.num 0).take (period + 1)).drop
          (period + 1 - period)).any (·.isNan) = true) := by
      rw [List.any_eq_true]
      rintro ⟨x, hx, hnan⟩
      obtain ⟨q, rfl, _⟩ := hgwin x hx
      simp [PF.isNan] at hnan
    rw [if_neg hnonan]
    obtain ⟨ws, hws⟩ := map_num_decomp _ fun x hx => ⟨(hgwin x hx).choose, (hgwin x hx).choose_spec.1⟩
    rw [hws]
    have hwsl : ws.length = period := by
      have := window_length hw (show period < (((Series.diff1 (qs.map PF.num)).map fun d =>
        if PF.pgtB d (PF.num 0) then d else PF.num 0)).length by rw [hGlen]; omega)
      rw [hws] at this
      simpa using this
    have hwsnil : ws ≠ [] := by
      intro hnil
      rw [hnil] at hwsl
      simp at hwsl
      omega
    rw [aggMean_map_num ws hwsnil]
    refine ⟨_, rfl, ?_⟩
    apply div_pos
    · apply List.sum_pos
      · intro y hy
        have hmem : PF.num y ∈ (((Series.diff1 (qs.map PF.num)).map fun d =>
            if PF.pgtB d (PF.num 0) then d else PF.num 0).take (period + 1)).drop
              (period + 1 - period) := by
          rw [hws]; exact List.mem_map_of_mem _ hy
        obtain ⟨p, hp, hppos⟩ := hgwin _ hmem
        have : y = p := by simpa using hp
        rw [this]; exact hppos
      · exact hwsnil
    · have : (0 : ℚ) < (ws.length : ℚ) := by
        rw [hwsl]
        exact_mod_cast hp
      simpa using this
  -- the loss window is all zeros
  have hloss : (Series.rollingAgg period Series.aggMean
      (((Series.diff1 (qs.map PF.num)).map fun d =>
        if PF.pltB d (PF.num 0) then d else PF.num 0).map PF.pneg)).getD period PF.nan =
      PF.num 0 := by
    rw [rollingAgg_getD _ _ _ period (by rw [hLlen]; omega)]
    rw [if_neg (by omega)]
    have hzwin : ∀ x ∈ (((((Series.diff1 (qs.map PF.num)).map fun d =>
        if PF.pltB d (PF.num 0) then d else PF.num 0).map PF.pneg).take (period + 1)).drop
          (period + 1 - period)), x = PF.num 0 := by
      intro x hx
      exact lossTI_mono_zero qs hmono x (List.mem_of_mem_take (List.mem_of_mem_drop hx))
    have hnonan : ¬ ((((((Series.diff1 (qs.map PF.num)).map fun d =>
        if PF.pltB d (PF.num 0) then d else PF.num 0).map PF.pneg).take (period + 1)).drop
          (period + 1 - period)).any (·.isNan) = true) := by
      rw [List.any_eq_true]
      rintro ⟨x, hx, hnan⟩
      rw [hzwin x hx] at hnan
      simp [PF.isNan] at hnan
    rw [if_neg hnonan]
    obtain ⟨ws, hws⟩ := map_num_decomp _ fun x hx => ⟨0, hzwin x hx⟩
    have hwsl : ws.length = period := by
      have := window_length hw (show period < ((((Series.diff1 (qs.map PF.num)).map fun d =>
        if PF.pltB d (PF.num 0) then d else PF.num 0).map PF.pneg)).length by rw [hLlen]; omega)
      rw [hws] at this
      simpa using this
    have hwsnil : ws ≠ [] := by
      intro hnil
      rw [hnil] at hwsl
      simp at hwsl
      omega
    rw [hws, aggMean_map_num ws hwsnil]
    have hsum : ws.sum = 0 := by
      apply List.sum_eq_zero
      intro y hy
      have hmem : PF.num y ∈ ((((Series.diff1 (qs.map PF.num)).map fun d =>
          if PF.pltB d (PF.num 0) then d else PF.num 0).map PF.pneg).take (period + 1)).drop
            (period + 1 - period) := by
        rw [hws]; exact List.mem_map_of_mem _ hy
      have := hzwin _ hmem
      simpa using this
    rw [hsum]
    simp
  obtain ⟨g, hgeq, hgpos⟩ := hgain
  rw [hgeq, hloss]
  exact rsiVal_100 g hgpos

/-- C10: every defined RSI cell of both implementations lies in [0,100], and
on a strictly monotonically increasing price series with at least period+1
rows both implementations give exactly 100 at row `period` (average loss
zero: the division-by-zero guard path). -/
theorem C10_rsi :
    (∀ (qs : List ℚ) (period i : ℕ) (q : ℚ),
      (technical.calculate_rsi (qs.map PF.num) period).getD i PF.nan = PF.num q →
      0 ≤ q ∧ q ≤ 100) ∧
    (∀ (qs : List ℚ) (period i : ℕ) (q : ℚ),
      (TechnicalIndicators.rsi (qs.map PF.num) period).getD i PF.nan = PF.num q →
      0 ≤ q ∧ q ≤ 100) ∧
    (∀ (qs : List ℚ) (period : ℕ), 1 ≤ period → period + 1 ≤ qs.length →
      (∀ j, j + 1 < qs.length → qs.getD j 0 < qs.getD (j + 1) 0) →
      (technical.calculate_rsi (qs.map PF.num) period).getD period PF.nan = PF.num 100 ∧
      (TechnicalIndicators.rsi (qs.map PF.num) period).getD period PF.nan = PF.num 100) :=
  ⟨calculate_rsi_bounds, rsiTI_bounds, fun qs period hp hlen hmono =>
    ⟨calculate_rsi_mono_100 qs period hp hlen hmono,
     rsiTI_mono_100 qs period hp hlen hmono⟩⟩

attribute [local semireducible] Rat.add Rat.mul Rat.inv Rat.sub Rat.ofScientific in
/-- C10 witness: the theorem applied to the strictly increasing closes
`[1,2,3]` with period 2: RSI is 100 at row 2 for both implementations, and
the bound statement holds at that cell. -/
theorem C10_witness :
    ((technical.calculate_rsi (([1, 2, 3] : List ℚ).map PF.num) 2).getD 2 PF.nan =
        PF.num 100 ∧ (0 ≤ (100 : ℚ) ∧ (100 : ℚ) ≤ 100)) ∧
    (1 ≤ 2 ∧ 2 + 1 ≤ ([1, 2, 3] : List ℚ).length ∧
      ∀ j, j + 1 < ([1, 2, 3] : List ℚ).length →
        ([1, 2, 3] : List ℚ).getD j 0 < ([1, 2, 3] : List ℚ).getD (j + 1) 0) ∧
    ((technical.calculate_rsi (([1, 2, 3] : List ℚ).map PF.num) 2).getD 2 PF.nan =
        PF.num 100 ∧
      (TechnicalIndicators.rsi (([1, 2, 3] : List ℚ).map PF.num) 2).getD 2 PF.nan =
        PF.num 100) :=
  ⟨⟨by decide, C10_rsi.1 [1, 2, 3] 2 2 100 (by decide)⟩,
   ⟨by decide, by decide, by
      intro j hj
      have hj2 : j = 0 ∨ j = 1 := by simp at hj; omega
      rcases hj2 with rfl | rfl <;>
        simp [List.getD_cons_succ, List.getD_cons_zero] <;> norm_num⟩,
   C10_rsi.2.2 [1, 2, 3] 2 (by decide) (by decide) (by
      intro j hj
      have hj2 : j = 0 ∨ j = 1 := by simp at hj; omega
      rcases hj2 with rfl | rfl <;>
        simp [List.getD_cons_succ, List.getD_cons_zero] <;> norm_num)⟩

open PF Series

/-! Truncation (causality) lemmas: every pandas primitive used by the
feature pipeline commutes with truncating the input to its first `n` rows. -/

theorem closes_take (df : List Bar) (n : ℕ) : closes (df.take n) = (closes df).take n := by
  simp [closes, List.map_take]

theorem opens_take (df : List Bar) (n : ℕ) : opens (df.take n) = (opens df).take n := by
  simp [opens, List.map_take]

theorem highs_take (df : List Bar) (n : ℕ) : highs (df.take n) = (highs df).take n := by
  simp [highs, List.map_take]

theorem lows_take (df : List Bar) (n : ℕ) : lows (df.take n) = (lows df).take n := by
  simp [lows, List.map_take]

theorem volumes_take (df : List Bar) (n : ℕ) : volumes (df.take n) = (volumes df).take n := by
  simp [volumes, List.map_take]

theorem lift2_take (f : PF → PF → PF) (a b : Series) (n : ℕ) :
    Series.lift2 f (a.take n) (b.take n) = (Series.lift2 f a b).take n := by
  simp [Series.lift2, List.zipWith_distrib_take]

theorem mapS_take (g : PF → PF) (xs : Series) (n : ℕ) :
    (xs.take n).map g = (xs.map g).take n := by
  simp [List.map_take]

theorem getD_take (xs : List PF) (n i : ℕ) (d : PF) (h : i < n) :
    (xs.take n).getD i d = xs.getD i d := by
  simp [List.getD_eq_getElem?_getD, List.getElem?_take, h]

theorem shiftN_take (k : ℕ) (xs : Series) (n : ℕ) :
    Series.shiftN k (xs.take n) = (Series.shiftN k xs).take n := by
  unfold Series.shiftN
  rw [← List.map_take, List.take_range, List.length_take]
  apply List.map_congr_left
  intro i hi
  rw [List.mem_range] at hi
  by_cases hk : i < k
  · simp [hk]
  · simp only [hk, if_false]
    exact getD_take xs n (i - k) PF.nan (by omega)

theorem cumsumGo_take (acc : PF) (xs : List PF) (n : ℕ) :
    Series.cumsumGo acc (xs.take n) = (Series.cumsumGo acc xs).take n := by
  induction xs generalizing acc n with
  | nil => simp [Series.cumsumGo]
  | cons x xs ih =>
      cases n with
      | zero => simp [Series.cumsumGo]
      | succ m =>
          simp only [List.take_succ_cons, Series.cumsumGo]
          by_cases hx : x.isNan
          · simp [hx, ih]
          · simp [hx, ih]

theorem cumsum_take (xs : Series) (n : ℕ) :
    Series.cumsum (xs.take n) = (Series.cumsum xs).take n := cumsumGo_take _ _ _

theorem ffillGo_take (last : PF) (xs : List PF) (n : ℕ) :
    Series.ffillGo last (xs.take n) = (Series.ffillGo last xs).take n := by
  induction xs generalizing last n with
  | nil => simp [Series.ffillGo]
  | cons x xs ih =>
      cases n with
      | zero => simp [Series.ffillGo]
      | succ m =>
          simp only [List.take_succ_cons, Series.ffillGo]
          by_cases hx : x.isNan
          · simp [hx, ih]
          · simp [hx, ih]

theorem ffill_take (xs : Series) (n : ℕ) :
    Series.ffill (xs.take n) = (Series.ffill xs).take n := ffillGo_take _ _ _

theorem pct_change_take (k : ℕ) (xs : Series) (n : ℕ) :
    Series.pct_change k (xs.take n) = (Series.pct_change k xs).take n := by
  simp only [Series.pct_change, ffill_take, shiftN_take, lift2_take]

theorem rollingAgg_take (w : ℕ) (agg : List PF → PF) (xs : Series) (n : ℕ) :
    Series.rollingAgg w agg (xs.take n) = (Series.rollingAgg w agg xs).take n := by
  unfold Series.rollingAgg
  rw [← List.map_take, List.take_range, List.length_take]
  apply List.map_congr_left
  intro i hi
  rw [List.mem_range] at hi
  have hwin : (xs.take n).take (i + 1) = xs.take (i + 1) := by
    rw [List.take_take, min_eq_left (by omega)]
  rw [hwin]

theorem ewmGo_take (adjust : Bool) (al : ℚ) (minp : ℕ) (s : Series.EwmState)
    (xs : List PF) (n : ℕ) :
    Series.ewmGo adjust al minp s (xs.take n) =
      (Series.ewmGo adjust al minp s xs).take n := by
  induction xs generalizing s n with
  | nil => simp [Series.ewmGo]
  | cons x xs ih =>
      cases n with
      | zero => simp [Series.ewmGo]
      | succ m =>
          simp only [List.take_succ_cons, Series.ewmGo]
          rw [ih]

theorem ewmMean_take (adjust : Bool) (al : ℚ) (minp : ℕ) (xs : Series) (n : ℕ) :
    Series.ewmMean adjust al minp (xs.take n) = (Series.ewmMean adjust al minp xs).take n :=
  ewmGo_take _ _ _ _ _ _

theorem ewmSpan_take (s : ℚ) (xs : Series) (n : ℕ) :
    Series.ewmSpan s (xs.take n) = (Series.ewmSpan s xs).take n := ewmMean_take _ _ _ _ _

theorem diff1_take (xs : Series) (n : ℕ) :
    Series.diff1 (xs.take n) = (Series.diff1 xs).take n := by
  simp only [Series.diff1, shiftN_take, lift2_take]

theorem calculate_rsi_take (prices : Series) (period n : ℕ) :
    technical.calculate_rsi (prices.take n) period =
      (technical.calculate_rsi prices period).take n := by
  simp only [technical.calculate_rsi, diff1_take, mapS_take, ewmMean_take, lift2_take]

theorem calculate_macd_take (prices : Series) (n : ℕ) :
    technical.calculate_macd (prices.take n) =
      ((technical.calculate_macd prices).1.take n,
       (technical.calculate_macd prices).2.1.take n,
       (technical.calculate_macd prices).2.2.take n) := by
  simp only [technical.calculate_macd, ewmSpan_take, lift2_take]

theorem calculate_stochastic_take (high low close : Series) (n : ℕ) :
    technical.calculate_stochastic (high.take n) (low.take n) (close.take n) =
      ((technical.calculate_stochastic high low close).1.take n,
       (technical.calculate_stochastic high low close).2.take n) := by
  simp only [technical.calculate_stochastic, rollingAgg_take, lift2_take]

theorem calculate_williams_r_take (high low close : Series) (n : ℕ) :
    technical.calculate_williams_r (high.take n) (low.take n) (close.take n) =
      (technical.calculate_williams_r high low close).take n := by
  simp only [technical.calculate_williams_r, rollingAgg_take, lift2_take]

theorem calculate_cci_take (high low close : Series) (n : ℕ) :
    technical.calculate_cci (high.take n) (low.take n) (close.take n) =
      (technical.calculate_cci high low close).take n := by
  simp only [technical.calculate_cci, rollingAgg_take, lift2_take, mapS_take]

theorem calculate_adx_take (high low close : Series) (n : ℕ) :
    technical.calculate_adx (high.take n) (low.take n) (close.take n) =
      (technical.calculate_adx high low close).take n := by
  simp only [technical.calculate_adx, diff1_take, lift2_take, shiftN_take, mapS_take,
    ewmSpan_take]

theorem tech_take (df : List Bar) (n : ℕ) :
    technical.generate_technical_features (df.take n) =
      (technical.generate_technical_features df).map fun c => (c.1, c.2.take n) := by
  simp only [technical.generate_technical_features, closes_take, highs_take, lows_take,
    calculate_rsi_take, calculate_macd_take, calculate_stochastic_take,
    calculate_williams_r_take, calculate_cci_take, calculate_adx_take,
    List.map_cons, List.map_nil]

theorem calculate_obv_take (close vol : Series) (n : ℕ) :
    volume.calculate_obv (close.take n) (vol.take n) =
      (volume.calculate_obv close vol).take n := by
  simp only [volume.calculate_obv, diff1_take, mapS_take, lift2_take, cumsum_take]

theorem obvCol_take (df : List Bar) (n : ℕ) :
    volume.obvCol (df.take n) = (volume.obvCol df).take n := by
  simp only [volume.obvCol, closes_take, volumes_take, calculate_obv_take]

theorem vol_take (df : List Bar) (n : ℕ) :
    volume.generate_volume_features (df.take n) =
      (volume.generate_volume_features df).map fun c => (c.1, c.2.take n) := by
  simp only [volume.generate_volume_features, volume.calculate_volume_ratio,
    volume.calculate_volume_trend, volume.calculate_vwap, volume.calculate_volume_spike,
    obvCol_take, closes_take, highs_take, lows_take, volumes_take,
    lift2_take, mapS_take, rollingAgg_take, cumsum_take, pct_change_take,
    List.map_cons, List.map_nil]

theorem price_vs_sma_take (prices : Series) (period n : ℕ) :
    price.calculate_price_vs_sma (prices.take n) period =
      (price.calculate_price_vs_sma prices period).take n := by
  simp only [price.calculate_price_vs_sma, price.calculate_sma, rollingAgg_take,
    lift2_take, mapS_take]

theorem price_take (df : List Bar) (n : ℕ) :
    price.generate_price_features (df.take n) =
      (price.generate_price_features df).map fun c => (c.1, c.2.take n) := by
  simp only [price.generate_price_features, price.calculate_52w_high_low,
    price.calculate_price_position, price.calculate_gap, price.calculate_intraday_range,
    price_vs_sma_take, closes_take, opens_take, highs_take, lows_take,
    rollingAgg_take, lift2_take, mapS_take, shiftN_take,
    List.map_cons, List.map_nil]

theorem calculate_returns_take (prices : Series) (period n : ℕ) :
    momentum.calculate_returns (prices.take n) period =
      (momentum.calculate_returns prices period).take n := by
  simp only [momentum.calculate_returns, pct_change_take, mapS_take]

theorem momentum_score_take (df : List Bar) (n : ℕ) :
    momentum.calculate_momentum_score (df.take n) =
      (momentum.calculate_momentum_score df).take n := by
  simp only [momentum.calculate_momentum_score, closes_take, pct_change_take,
    mapS_take, lift2_take]

theorem mom_take (df : List Bar) (n : ℕ) :
    momentum.generate_momentum_features (df.take n) =
      (momentum.generate_momentum_features df).map fun c => (c.1, c.2.take n) := by
  simp only [momentum.generate_momentum_features, momentum.calculate_acceleration,
    calculate_returns_take, momentum_score_take, closes_take, pct_change_take,
    mapS_take, lift2_take, List.map_cons, List.map_nil]

theorem calculate_atr_take (high low close : Series) (p : ℚ) (n : ℕ) :
    volatility.calculate_atr (high.take n) (low.take n) (close.take n) p =
      (volatility.calculate_atr high low close p).take n := by
  simp only [volatility.calculate_atr, lift2_take, shiftN_take, mapS_take, ewmSpan_take]

theorem vola_take (df : List Bar) (n : ℕ) :
    volatility.generate_volatility_features (df.take n) =
      (volatility.generate_volatility_features df).map fun c => (c.1, c.2.take n) := by
  simp only [volatility.generate_volatility_features, volatility.calculate_bollinger_bands,
    volatility.calculate_bollinger_width, volatility.calculate_bollinger_position,
    volatility.calculate_historical_volatility,
    calculate_atr_take, closes_take, highs_take, lows_take,
    rollingAgg_take, lift2_take, mapS_take, shiftN_take,
    List.map_cons, List.map_nil]

theorem lookup?_map_take (c : String) (cols : List (String × Series)) (n : ℕ) :
    pipeline.lookup? c (cols.map fun p => (p.1, p.2.take n)) =
      (pipeline.lookup? c cols).map fun s => s.take n := by
  induction cols with
  | nil => rfl
  | cons p ps ih =>
      by_cases hp : p.1 == c
      · simp [pipeline.lookup?, hp]
      · simp only [pipeline.lookup?, List.map_cons, List.find?] at ih ⊢
        simp only [hp, Bool.false_eq_true, if_false, cond_false]
        exact ih

theorem addIf_take (n : ℕ) (a : Series) (t : Option Series) :
    pipeline.addIf (a.take n) (t.map fun s => s.take n) = (pipeline.addIf a t).take n := by
  cases t with
  | none => rfl
  | some s => simp [pipeline.addIf, lift2_take]

theorem optmap_take (t : Option Series) (g : Series → Series) (n : ℕ)
    (hg : ∀ s, g (s.take n) = (g s).take n) :
    ((t.map fun s => s.take n).map g) = ((t.map g).map fun s => s.take n) := by
  cases t with
  | none => rfl
  | some s => simp [hg]

theorem derived_take (n len : ℕ) (cols : List (String × Series)) :
    pipeline._calculate_derived_features (min n len) (cols.map fun p => (p.1, p.2.take n)) =
      (pipeline._calculate_derived_features len cols).map fun p => (p.1, p.2.take n) := by
  simp only [pipeline._calculate_derived_features, lookup?_map_take,
    ← List.take_replicate]
  rw [optmap_take _ _ n (fun s => mapS_take _ s n),
      optmap_take _ _ n (fun s => mapS_take _ s n),
      optmap_take _ _ n (fun s => mapS_take _ s n),
      optmap_take _ _ n (fun s => mapS_take _ s n),
      optmap_take _ _ n (fun s => mapS_take _ s n),
      optmap_take _ _ n (fun s => mapS_take _ s n),
      optmap_take _ _ n (fun s => mapS_take _ s n),
      optmap_take _ _ n (fun s => mapS_take _ s n),
      optmap_take _ _ n (fun s => mapS_take _ s n),
      optmap_take _ _ n (fun s => mapS_take _ s n)]
  simp only [addIf_take, List.map_cons, List.map_nil]

theorem featureMatrix_take (df : List Bar) (n : ℕ) :
    pipeline.featureMatrix (df.take n) =
      (pipeline.featureMatrix df).map fun c => (c.1, c.2.take n) := by
  simp only [pipeline.featureMatrix]
  rw [tech_take, vol_take, price_take, mom_take, vola_take,
    ← List.map_append, ← List.map_append, ← List.map_append, ← List.map_append,
    List.length_take, derived_take]
  simp only [List.map_append]

/-- C1: every non-target feature column is causal: truncating the input to its
first `n` bars truncates every generated feature column to its first `n`
cells and changes nothing else, so the cell at row `t` depends only on bars
at or before `t` (second conjunct: the row-`t` cells of every feature column
are identical whether computed from the full history or from the history cut
off right after row `t`). -/
theorem C1_causality :
    (∀ (df : List Bar) (n : ℕ),
      pipeline.featureMatrix (df.take n) =
        (pipeline.featureMatrix df).map fun c => (c.1, c.2.take n)) ∧
    (∀ (df : List Bar) (t : ℕ),
      (pipeline.featureMatrix (df.take (t + 1))).map (fun c => (c.1, c.2.getD t PF.nan)) =
        (pipeline.featureMatrix df).map fun c => (c.1, c.2.getD t PF.nan)) := by
  refine ⟨featureMatrix_take, fun df t => ?_⟩
  rw [featureMatrix_take df (t + 1), List.map_map]
  apply List.map_congr_left
  intro c _
  simp only [Function.comp]
  rw [getD_take c.2 (t + 1) t PF.nan (Nat.lt_succ_self t)]

/-- Witness: the truncation-invariance equalities of `C1_causality` at the
concrete 10-bar constant input, truncated to 3 bars (row 2). -/
theorem C1_witness :
    pipeline.featureMatrix (const10.take 3) =
        (pipeline.featureMatrix const10).map (fun c => (c.1, c.2.take 3)) ∧
      (pipeline.featureMatrix (const10.take 3)).map (fun c => (c.1, c.2.getD 2 PF.nan)) =
        (pipeline.featureMatrix const10).map fun c => (c.1, c.2.getD 2 PF.nan) :=
  ⟨C1_causality.1 const10 3, C1_causality.2 const10 2⟩
